import Mathlib

/-!
Verification of the dbt profile configuration core of this repository:
the pydantic models in src/brix/modules/dbt/profile/models.py and the
CRUD editor in src/brix/modules/dbt/profile/editor.py, shallowly
embedded in Lean.  YAML scalars/collections are embedded as the
inductive type Val; Python dicts (which preserve insertion order) are
embedded as association lists List (String × _); Python str is Lean
String, Python int is Int; construction that may raise pydantic
ValidationError is embedded as Except String (the message of the first
failing validator; pydantic aggregates messages, which is irrelevant at
the error-kind level used by the spec).  The YAML text codec
(yaml.safe_load / yaml.dump) is third-party code outside this
repository; it is modelled abstractly: parsing is a value of type
Except String Val handed to the post-load logic, and the round-trip
laws are stated at the Val level (yaml.dump followed by yaml.safe_load
is treated as the identity on these values).
-/

/-- Embedding of a YAML / Python data value as produced by yaml.safe_load. -/
inductive Val
| vNull : Val
| vBool (b : Bool) : Val
| vInt (n : Int) : Val
| vStr (s : String) : Val
| vList (xs : List Val) : Val
| vMap (kvs : List (String × Val)) : Val

/-- True when the value is the Python None / YAML null. -/
def Val.isNull : Val → Bool
| .vNull => true
| _ => false

/-- Embedding of Python dict key lookup on an insertion-ordered dict. -/
def lookupKey {α : Type} : List (String × α) → String → Option α
| [], _ => none
| (k, v) :: rest, key => if k = key then some v else lookupKey rest key

/-- Embedding of Python dict value assignment at an existing key: the
value is replaced in place, the position of every key is kept. -/
def modifyValue {α : Type} (l : List (String × α)) (key : String) (f : α → α) :
    List (String × α) :=
  l.map (fun kv => if kv.1 = key then (kv.1, f kv.2) else kv)

/-- Embedding of Python del d[key] on a dict whose keys are unique. -/
def removeKey {α : Type} (l : List (String × α)) (key : String) : List (String × α) :=
  l.filter (fun kv => kv.1 ≠ key)

/-- Embedding of Python d[key] = v: replace in place when the key exists,
append at the end otherwise. -/
def setKey {α : Type} (l : List (String × α)) (key : String) (v : α) :
    List (String × α) :=
  if (lookupKey l key).isSome then modifyValue l key (fun _ => v) else l ++ [(key, v)]

/-- Keys of an association list. -/
def keysOf {α : Type} (l : List (String × α)) : List String := l.map Prod.fst

/-!
Output configuration models (models.py).  Each pydantic model with
extra="allow" is a structure of its declared fields plus an `extras`
association list holding the unrecognized keys.
-/

/-- Embedding of DuckDbOutput (models.py lines 16-37): declared fields
plus the opaque extras kept by extra="allow". -/
structure DuckDbOutput where
  path : String
  schema_ : String
  database : String
  threads : Int
  extensions : List String
  settings : List (String × Val)
  extras : List (String × Val)

/-- Embedding of DatabricksOutput (models.py lines 44-164): declared
fields plus the opaque extras kept by extra="allow".  auth_type is an
Option String whose only legal set value, enforced by construction, is
the literal "oauth". -/
structure DatabricksOutput where
  schema_ : String
  host : String
  http_path : String
  token : Option String
  auth_type : Option String
  client_id : Option String
  client_secret : Option String
  azure_client_id : Option String
  azure_client_secret : Option String
  catalog : Option String
  threads : Int
  connect_retries : Int
  connect_timeout : Option Int
  extras : List (String × Val)

/-- Embedding of the discriminated union OutputConfig (models.py line 168). -/
inductive OutputConfig
| duckdb (d : DuckDbOutput) : OutputConfig
| databricks (b : DatabricksOutput) : OutputConfig

/-- Embedding of the field validator strip_host_protocol (models.py
lines 77-86): Python str.startswith is character-list prefix testing and
v[8:] / v[7:] is character-list drop. -/
def strip_host_protocol (v : String) : String :=
  if "https://".data.isPrefixOf v.data then ⟨v.data.drop 8⟩
  else if "http://".data.isPrefixOf v.data then ⟨v.data.drop 7⟩
  else v

/-- Embedding of the field validator ensure_http_path_starts_with_slash
(models.py lines 88-94). -/
def ensure_http_path_starts_with_slash (v : String) : String :=
  if "/".data.isPrefixOf v.data then v else "/" ++ v

/-- Python truthiness of an optional string: None and the empty string
are falsy, every other string is truthy. -/
def optTruthy : Option String → Bool
| none => false
| some s => decide (s ≠ "")

/-- Embedding of the model validator validate_auth_method (models.py
lines 114-164), line for line: `is not None` tests become isSome and the
bare truthiness tests on client_id / client_secret / azure_client_id /
azure_client_secret become optTruthy. -/
def validate_auth_method (token auth_type client_id client_secret
    azure_client_id azure_client_secret : Option String) : Except String Unit :=
  let has_token := token.isSome
  let has_oauth := auth_type == some "oauth"
  let has_client_creds := client_id.isSome || client_secret.isSome
  let has_azure_creds := azure_client_id.isSome || azure_client_secret.isSome
  if has_token then
    if has_oauth || has_client_creds || has_azure_creds then
      .error "Cannot use token authentication with OAuth settings"
    else .ok ()
  else if has_oauth then
    if has_client_creds then
      if !(optTruthy client_id && optTruthy client_secret) then
        .error "Both client_id and client_secret are required for OAuth M2M (AWS/GCP)"
      else if has_azure_creds then
        .error "Cannot mix AWS/GCP and Azure OAuth credentials"
      else .ok ()
    else if has_azure_creds then
      if !(optTruthy azure_client_id && optTruthy azure_client_secret) then
        .error "Both azure_client_id and azure_client_secret are required for OAuth M2M (Azure)"
      else .ok ()
    else .ok ()
  else if has_client_creds || has_azure_creds then
    .error "OAuth credentials require auth_type oauth"
  else .ok ()

/-- Embedding of pydantic construction of a DuckDbOutput from typed
field values.  DuckDbOutput declares no failing validator for typed
inputs; the only model validator, sync_database_with_memory_path
(models.py lines 32-37), is a normalization. -/
def mkDuckDbOutput (path schema_ database : String) (threads : Int)
    (extensions : List String) (settings extras : List (String × Val)) :
    Except String DuckDbOutput :=
  let database := if path = ":memory:" ∧ database ≠ "memory" then "memory" else database
  .ok ⟨path, schema_, database, threads, extensions, settings, extras⟩

/-- Embedding of pydantic construction of a DatabricksOutput from typed
field values: the before-validators normalize host and http_path, the
field validators check the auth_type literal, threads and
connect_retries, and the model validator checks the authentication
combination (models.py lines 44-164). -/
def mkDatabricksOutput (schema_ host http_path : String)
    (token auth_type client_id client_secret azure_client_id
     azure_client_secret catalog : Option String)
    (threads connect_retries : Int) (connect_timeout : Option Int)
    (extras : List (String × Val)) : Except String DatabricksOutput :=
  let host := strip_host_protocol host
  let http_path := ensure_http_path_starts_with_slash http_path
  match auth_type with
  | some s =>
    if s = "oauth" then
      if threads < 1 then .error "threads must be at least 1"
      else if connect_retries < 0 then .error "connect_retries must be non-negative"
      else
        match validate_auth_method token auth_type client_id client_secret
            azure_client_id azure_client_secret with
        | .error e => .error e
        | .ok _ => .ok ⟨schema_, host, http_path, token, auth_type, client_id,
            client_secret, azure_client_id, azure_client_secret, catalog,
            threads, connect_retries, connect_timeout, extras⟩
    else .error "auth_type must be the literal oauth"
  | none =>
    if threads < 1 then .error "threads must be at least 1"
    else if connect_retries < 0 then .error "connect_retries must be non-negative"
    else
      match validate_auth_method token auth_type client_id client_secret
          azure_client_id azure_client_secret with
      | .error e => .error e
      | .ok _ => .ok ⟨schema_, host, http_path, token, auth_type, client_id,
          client_secret, azure_client_id, azure_client_secret, catalog,
          threads, connect_retries, connect_timeout, extras⟩

/-- Embedding of ProfileTarget (models.py lines 171-177). -/
structure ProfileTarget where
  target : String
  outputs : List (String × OutputConfig)
  extras : List (String × Val)

/-- Embedding of DbtProfiles (models.py lines 180-250).  from_yaml
constructs the instance as cls(root=data) with the entire top-level
mapping as root, so no instance produced by parsing carries extra
fields and the root field is the whole document. -/
structure DbtProfiles where
  root : List (String × ProfileTarget)

/-!
Parsing from a YAML value (the pydantic validation performed by
DbtProfiles(root=data) in from_yaml).  Error messages are the kind-level
embedding of pydantic ValidationError messages; lax-mode numeric-string
coercions, irrelevant to every claim, are not modelled.
-/

/-- Validation of a value against str. -/
def parseStr : Val → Except String String
| .vStr s => .ok s
| _ => .error "Input should be a valid string"

/-- Validation of a value against int. -/
def parseInt : Val → Except String Int
| .vInt n => .ok n
| _ => .error "Input should be a valid integer"

/-- Validation of an optional str field: an absent key and an explicit
null both give None. -/
def parseOptStr : Option Val → Except String (Option String)
| none => .ok none
| some .vNull => .ok none
| some (.vStr s) => .ok (some s)
| some _ => .error "Input should be a valid string"

/-- Validation of an optional int field. -/
def parseOptInt : Option Val → Except String (Option Int)
| none => .ok none
| some .vNull => .ok none
| some (.vInt n) => .ok (some n)
| some _ => .error "Input should be a valid integer"

/-- Validation of a list of strings (the extensions field). -/
def parseStrList : List Val → Except String (List String)
| [] => .ok []
| v :: rest =>
  match parseStr v with
  | .error e => .error e
  | .ok s =>
    match parseStrList rest with
    | .error e => .error e
    | .ok ss => .ok (s :: ss)

/-- Lookup of the schema field: the alias "schema" is tried first, then
the field name "schema_" accepted through populate_by_name. -/
def lookupSchemaField (m : List (String × Val)) : Option Val :=
  match lookupKey m "schema" with
  | some v => some v
  | none => lookupKey m "schema_"

/-- Keys of DuckDbOutput consumed as fields or aliases; every other key
is kept as an extra. -/
def knownDuckDbKeys : List String :=
  ["type", "path", "schema", "schema_", "database", "threads", "extensions", "settings"]

/-- Keys of DatabricksOutput consumed as fields or aliases. -/
def knownDatabricksKeys : List String :=
  ["type", "schema", "schema_", "host", "http_path", "token", "auth_type",
   "client_id", "client_secret", "azure_client_id", "azure_client_secret",
   "catalog", "threads", "connect_retries", "connect_timeout"]

/-- Embedding of pydantic validation of a DuckDbOutput from the mapping
of a YAML output record (discriminator already dispatched). -/
def parseDuckDb (m : List (String × Val)) : Except String DuckDbOutput := do
  let path ← match lookupKey m "path" with
    | none => pure ":memory:"
    | some v => parseStr v
  let schema_ ← match lookupSchemaField m with
    | none => pure "main"
    | some v => parseStr v
  let database ← match lookupKey m "database" with
    | none => pure "main"
    | some v => parseStr v
  let threads ← match lookupKey m "threads" with
    | none => pure (1 : Int)
    | some v => parseInt v
  let extensions ← match lookupKey m "extensions" with
    | none => pure []
    | some (.vList xs) => parseStrList xs
    | some _ => .error "Input should be a valid list"
  let settings ← match lookupKey m "settings" with
    | none => pure []
    | some (.vMap kvs) => pure kvs
    | some _ => .error "Input should be a valid dictionary"
  let extras := m.filter (fun kv => !(knownDuckDbKeys.contains kv.1))
  mkDuckDbOutput path schema_ database threads extensions settings extras

/-- Embedding of pydantic validation of a DatabricksOutput from the
mapping of a YAML output record. -/
def parseDatabricks (m : List (String × Val)) : Except String DatabricksOutput := do
  let schema_ ← match lookupSchemaField m with
    | none => .error "schema Field required"
    | some v => parseStr v
  let host ← match lookupKey m "host" with
    | none => .error "host Field required"
    | some v => parseStr v
  let http_path ← match lookupKey m "http_path" with
    | none => .error "http_path Field required"
    | some v => parseStr v
  let token ← parseOptStr (lookupKey m "token")
  let auth_type ← parseOptStr (lookupKey m "auth_type")
  let client_id ← parseOptStr (lookupKey m "client_id")
  let client_secret ← parseOptStr (lookupKey m "client_secret")
  let azure_client_id ← parseOptStr (lookupKey m "azure_client_id")
  let azure_client_secret ← parseOptStr (lookupKey m "azure_client_secret")
  let catalog ← parseOptStr (lookupKey m "catalog")
  let threads ← match lookupKey m "threads" with
    | none => pure (1 : Int)
    | some v => parseInt v
  let connect_retries ← match lookupKey m "connect_retries" with
    | none => pure (0 : Int)
    | some v => parseInt v
  let connect_timeout ← parseOptInt (lookupKey m "connect_timeout")
  let extras := m.filter (fun kv => !(knownDatabricksKeys.contains kv.1))
  mkDatabricksOutput schema_ host http_path token auth_type client_id
    client_secret azure_client_id azure_client_secret catalog threads
    connect_retries connect_timeout extras

/-- Embedding of the discriminated-union dispatch on the type field
(models.py line 168). -/
def parseOutput : Val → Except String OutputConfig
| .vMap m =>
  match lookupKey m "type" with
  | some (.vStr "duckdb") => .duckdb <$> parseDuckDb m
  | some (.vStr "databricks") => .databricks <$> parseDatabricks m
  | some _ => .error "Input tag does not match any of the expected tags"
  | none => .error "type Field required"
| _ => .error "Input should be a valid dictionary"

/-- Validation of the outputs mapping of a profile, entry by entry. -/
def parseOutputsList : List (String × Val) → Except String (List (String × OutputConfig))
| [] => .ok []
| (k, v) :: rest =>
  match parseOutput v with
  | .error e => .error e
  | .ok c =>
    match parseOutputsList rest with
    | .error e => .error e
    | .ok cs => .ok ((k, c) :: cs)

/-- Embedding of pydantic validation of a ProfileTarget from a YAML value. -/
def parseProfileTarget : Val → Except String ProfileTarget
| .vMap m =>
  match lookupKey m "target" with
  | none => .error "target Field required"
  | some tv =>
    match parseStr tv with
    | .error e => .error e
    | .ok target =>
      match lookupKey m "outputs" with
      | none => .error "outputs Field required"
      | some (.vMap kvs) =>
        match parseOutputsList kvs with
        | .error e => .error e
        | .ok outputs =>
          .ok ⟨target, outputs, m.filter (fun kv => !(["target", "outputs"].contains kv.1))⟩
      | some _ => .error "Input should be a valid dictionary"
| _ => .error "Input should be a valid dictionary"

/-- Validation of the whole top-level mapping: cls(root=data) requires
every top-level value to validate as a ProfileTarget. -/
def parseProfilesList : List (String × Val) → Except String (List (String × ProfileTarget))
| [] => .ok []
| (k, v) :: rest =>
  match parseProfileTarget v with
  | .error e => .error e
  | .ok p =>
    match parseProfilesList rest with
    | .error e => .error e
    | .ok ps => .ok ((k, p) :: ps)

/-- Error kinds of from_yaml, per the taxonomy of the spec: a YAML
syntax failure is the MalformedDocumentError kind (the ValueError
message starts with Invalid YAML), everything else raised during
parsing is the SchemaError kind. -/
inductive ParseErr
| malformedDocument (msg : String) : ParseErr
| schemaError (msg : String) : ParseErr

/-- Embedding of the mapping-shape check and pydantic validation in
from_yaml (models.py lines 216-220) applied to an already-loaded value. -/
def fromVal : Val → Except ParseErr DbtProfiles
| .vMap kvs =>
  match parseProfilesList kvs with
  | .ok root => .ok ⟨root⟩
  | .error e => .error (.schemaError e)
| _ => .error (.schemaError "profiles.yml must be a YAML mapping")

/-- Embedding of from_yaml (models.py lines 195-220) applied to the
outcome of yaml.safe_load on the input text: a load failure becomes the
MalformedDocumentError kind, a loaded value goes through fromVal. -/
def from_yaml (loaded : Except String Val) : Except ParseErr DbtProfiles :=
  match loaded with
  | .error e => .error (.malformedDocument ("Invalid YAML: " ++ e))
  | .ok v => fromVal v

/-!
Serialization (to_yaml, models.py lines 239-250): each model is dumped
with model_dump(exclude_none=True, by_alias=True), so fields are
emitted in declaration order under their alias, None-valued fields are
dropped, and extras follow the declared fields.
-/

/-- Entry of an optional string field in a dump: dropped if None. -/
def optStrEntry (k : String) : Option String → List (String × Val)
| none => []
| some s => [(k, .vStr s)]

/-- Entry of an optional int field in a dump: dropped if None. -/
def optIntEntry (k : String) : Option Int → List (String × Val)
| none => []
| some n => [(k, .vInt n)]

/-- Extras as serialized: exclude_none drops the None-valued ones. -/
def dumpExtras (extras : List (String × Val)) : List (String × Val) :=
  extras.filter (fun kv => !kv.2.isNull)

/-- Serialization of a DuckDbOutput by model_dump(exclude_none=True,
by_alias=True): no declared field is optional, so all are emitted. -/
def dumpDuckDb (d : DuckDbOutput) : List (String × Val) :=
  [("type", .vStr "duckdb"), ("path", .vStr d.path), ("schema", .vStr d.schema_),
   ("database", .vStr d.database), ("threads", .vInt d.threads),
   ("extensions", .vList (d.extensions.map .vStr)), ("settings", .vMap d.settings)]
  ++ dumpExtras d.extras

/-- Serialization of a DatabricksOutput by model_dump(exclude_none=True,
by_alias=True). -/
def dumpDatabricks (b : DatabricksOutput) : List (String × Val) :=
  [("type", .vStr "databricks"), ("schema", .vStr b.schema_),
   ("host", .vStr b.host), ("http_path", .vStr b.http_path)]
  ++ optStrEntry "token" b.token
  ++ optStrEntry "auth_type" b.auth_type
  ++ optStrEntry "client_id" b.client_id
  ++ optStrEntry "client_secret" b.client_secret
  ++ optStrEntry "azure_client_id" b.azure_client_id
  ++ optStrEntry "azure_client_secret" b.azure_client_secret
  ++ optStrEntry "catalog" b.catalog
  ++ [("threads", .vInt b.threads), ("connect_retries", .vInt b.connect_retries)]
  ++ optIntEntry "connect_timeout" b.connect_timeout
  ++ dumpExtras b.extras

/-- Serialization of an output record. -/
def dumpOutput : OutputConfig → List (String × Val)
| .duckdb d => dumpDuckDb d
| .databricks b => dumpDatabricks b

/-- Serialization of a ProfileTarget. -/
def dumpProfile (p : ProfileTarget) : List (String × Val) :=
  [("target", .vStr p.target),
   ("outputs", .vMap (p.outputs.map (fun kv => (kv.1, .vMap (dumpOutput kv.2)))))]
  ++ dumpExtras p.extras

/-- Embedding of to_yaml (models.py lines 239-250) at the value level:
the emitted document is the mapping of profile names to dumped profiles. -/
def to_yaml (ps : DbtProfiles) : Val :=
  .vMap (ps.root.map (fun kv => (kv.1, .vMap (dumpProfile kv.2))))

/-!
Editor (editor.py).  Python mutates the document in place and raises on
precondition failure; the embedding makes the post-call state explicit:
every operation returns the raised error (if any) together with the
state of the document after the call.
-/

/-- Typed errors of the editor (editor.py lines 15-28).  The last-output
guard in delete_output raises a plain ValueError; it is the
LastOutputError kind of the spec taxonomy. -/
inductive EditorError
| profileNotFound (name : String) : EditorError
| outputNotFound (profile output : String) : EditorError
| profileAlreadyExists (name : String) : EditorError
| outputAlreadyExists (profile output : String) : EditorError
| lastOutput (profile : String) : EditorError

/-- Embedding of add_profile (editor.py lines 107-137). -/
def add_profile (ps : DbtProfiles) (name target output_name : String)
    (output_config : OutputConfig) : Option EditorError × DbtProfiles :=
  if (lookupKey ps.root name).isSome then
    (some (.profileAlreadyExists name), ps)
  else
    (none, ⟨ps.root ++ [(name, ⟨target, [(output_name, output_config)], []⟩)]⟩)

/-- Embedding of update_profile_target (editor.py lines 140-159). -/
def update_profile_target (ps : DbtProfiles) (name target : String) :
    Option EditorError × DbtProfiles :=
  if (lookupKey ps.root name).isNone then
    (some (.profileNotFound name), ps)
  else
    (none, ⟨modifyValue ps.root name (fun p => { p with target := target })⟩)

/-- Embedding of delete_profile (editor.py lines 162-180). -/
def delete_profile (ps : DbtProfiles) (name : String) :
    Option EditorError × DbtProfiles :=
  if (lookupKey ps.root name).isNone then
    (some (.profileNotFound name), ps)
  else
    (none, ⟨removeKey ps.root name⟩)

/-- Embedding of add_output (editor.py lines 183-213). -/
def add_output (ps : DbtProfiles) (profile_name output_name : String)
    (output_config : OutputConfig) : Option EditorError × DbtProfiles :=
  match lookupKey ps.root profile_name with
  | none => (some (.profileNotFound profile_name), ps)
  | some prof =>
    if (lookupKey prof.outputs output_name).isSome then
      (some (.outputAlreadyExists profile_name output_name), ps)
    else
      (none, ⟨modifyValue ps.root profile_name
        (fun p => { p with outputs := p.outputs ++ [(output_name, output_config)] })⟩)

/-- Embedding of the two direct attribute assignments of update_output
(editor.py lines 250-253).  validate_assignment is off, so no validator
or normalization reruns: a DuckDB output takes the new path and threads
verbatim, and a Databricks output, which declares no path field, stores
the assigned path in its extras under extra="allow" while threads is
assigned verbatim. -/
def updateOutputConfig (c : OutputConfig) (path : Option String)
    (threads : Option Int) : OutputConfig :=
  match c with
  | .duckdb d =>
    .duckdb { d with path := path.getD d.path, threads := threads.getD d.threads }
  | .databricks b =>
    .databricks { b with
      extras := (match path with
        | none => b.extras
        | some p => setKey b.extras "path" (.vStr p)),
      threads := threads.getD b.threads }

/-- Embedding of update_output (editor.py lines 216-255). -/
def update_output (ps : DbtProfiles) (profile_name output_name : String)
    (path : Option String) (threads : Option Int) :
    Option EditorError × DbtProfiles :=
  match lookupKey ps.root profile_name with
  | none => (some (.profileNotFound profile_name), ps)
  | some prof =>
    if (lookupKey prof.outputs output_name).isNone then
      (some (.outputNotFound profile_name output_name), ps)
    else
      (none, ⟨modifyValue ps.root profile_name
        (fun p => { p with outputs :=
          (modifyValue p.outputs output_name
            (fun c => updateOutputConfig c path threads)) })⟩)

/-- Embedding of delete_output (editor.py lines 258-291). -/
def delete_output (ps : DbtProfiles) (profile_name output_name : String) :
    Option EditorError × DbtProfiles :=
  match lookupKey ps.root profile_name with
  | none => (some (.profileNotFound profile_name), ps)
  | some prof =>
    if (lookupKey prof.outputs output_name).isNone then
      (some (.outputNotFound profile_name output_name), ps)
    else if prof.outputs.length = 1 then
      (some (.lastOutput profile_name), ps)
    else
      (none, ⟨modifyValue ps.root profile_name
        (fun p => { p with outputs := removeKey p.outputs output_name })⟩)

/-!
Well-formedness.  Python dictionaries cannot hold a key twice, so a
document reachable in the Python program has unique keys at every
level; association lists carry that as an explicit predicate.
-/

/-- Keys of an association list are pairwise distinct, as in any
Python dict. -/
def NodupKeys {α : Type} (l : List (String × α)) : Prop := (keysOf l).Nodup

/-- Unique keys at the root and in every outputs mapping. -/
def WfKeys (ps : DbtProfiles) : Prop :=
  NodupKeys ps.root ∧ ∀ kv ∈ ps.root, NodupKeys kv.2.outputs

/-- Every profile of the document has at least one output. -/
def EveryProfileHasOutput (ps : DbtProfiles) : Prop :=
  ∀ kv ∈ ps.root, kv.2.outputs ≠ []

/-- Extras of a model are round-trippable: no key collides with a
declared field or alias, and no value is None (exclude_none drops
None-valued entries on dump). -/
def WfExtras (known : List String) (extras : List (String × Val)) : Prop :=
  ∀ kv ∈ extras, ¬known.contains kv.1 ∧ kv.2.isNull = false

/-- A DuckDbOutput satisfying its construction-time normalization. -/
def WfDuckDb (d : DuckDbOutput) : Prop :=
  (d.path = ":memory:" → d.database = "memory") ∧ WfExtras knownDuckDbKeys d.extras

/-- A DatabricksOutput satisfying its construction-time validators and
normalizations. -/
def WfDatabricks (b : DatabricksOutput) : Prop :=
  strip_host_protocol b.host = b.host ∧
  ensure_http_path_starts_with_slash b.http_path = b.http_path ∧
  (b.auth_type = none ∨ b.auth_type = some "oauth") ∧
  1 ≤ b.threads ∧ 0 ≤ b.connect_retries ∧
  validate_auth_method b.token b.auth_type b.client_id b.client_secret
    b.azure_client_id b.azure_client_secret = .ok () ∧
  WfExtras knownDatabricksKeys b.extras

/-- A well-formed output record of either variant. -/
def WfOutput : OutputConfig → Prop
| .duckdb d => WfDuckDb d
| .databricks b => WfDatabricks b

/-- A well-formed profile: round-trippable extras and well-formed outputs. -/
def WfProfile (p : ProfileTarget) : Prop :=
  WfExtras ["target", "outputs"] p.extras ∧ ∀ kv ∈ p.outputs, WfOutput kv.2

/-- A well-formed document: every profile is well-formed. -/
def WfDoc (ps : DbtProfiles) : Prop :=
  ∀ kv ∈ ps.root, WfProfile kv.2

/-! Helper lemmas. -/

@[simp]
theorem exceptBind_ok {ε α β : Type} (a : α) (f : α → Except ε β) :
    (Except.ok a : Except ε α) >>= f = f a := rfl

@[simp]
theorem exceptBind_error {ε α β : Type} (e : ε) (f : α → Except ε β) :
    (Except.error e : Except ε α) >>= f = Except.error e := rfl

@[simp]
theorem exceptPure {ε α : Type} (a : α) : (pure a : Except ε α) = Except.ok a := rfl

@[simp]
theorem lookupKey_nil {α : Type} (k : String) : lookupKey ([] : List (String × α)) k = none := rfl

@[simp]
theorem lookupKey_cons {α : Type} (k' : String) (v : α) (rest : List (String × α)) (k : String) :
    lookupKey ((k', v) :: rest) k = if k' = k then some v else lookupKey rest k := rfl

@[simp]
theorem keysOf_nil {α : Type} : keysOf ([] : List (String × α)) = [] := rfl

@[simp]
theorem keysOf_cons {α : Type} (k' : String) (v : α) (rest : List (String × α)) :
    keysOf ((k', v) :: rest) = k' :: keysOf rest := rfl

@[simp]
theorem keysOf_append {α : Type} (l₁ l₂ : List (String × α)) :
    keysOf (l₁ ++ l₂) = keysOf l₁ ++ keysOf l₂ := List.map_append ..

theorem lookupKey_eq_none_iff {α : Type} (l : List (String × α)) (k : String) :
    lookupKey l k = none ↔ k ∉ keysOf l := by
  induction l with
  | nil => simp
  | cons kv rest ih =>
    obtain ⟨k', v⟩ := kv
    by_cases h : k' = k
    · subst h
      simp
    · have h' : ¬ k = k' := fun e => h e.symm
      rw [lookupKey_cons, if_neg h, ih, keysOf_cons]
      simp [h']

theorem lookupKey_isSome_iff {α : Type} (l : List (String × α)) (k : String) :
    (lookupKey l k).isSome = true ↔ k ∈ keysOf l := by
  rcases hl : lookupKey l k with _ | v
  · rw [lookupKey_eq_none_iff] at hl
    simp [hl]
  · have : ¬ lookupKey l k = none := by simp [hl]
    rw [lookupKey_eq_none_iff] at this
    simp [hl]
    exact not_not.mp this

theorem lookupKey_append_of_none {α : Type} {l₁ : List (String × α)}
    (l₂ : List (String × α)) {k : String} (h : lookupKey l₁ k = none) :
    lookupKey (l₁ ++ l₂) k = lookupKey l₂ k := by
  induction l₁ with
  | nil => simp
  | cons kv rest ih =>
    obtain ⟨k', v⟩ := kv
    by_cases hk : k' = k
    · simp [hk] at h
    · simp [hk] at h ⊢
      exact ih h

theorem lookupKey_append_of_some {α : Type} {l₁ : List (String × α)}
    (l₂ : List (String × α)) {k : String} {v : α} (h : lookupKey l₁ k = some v) :
    lookupKey (l₁ ++ l₂) k = some v := by
  induction l₁ with
  | nil => simp at h
  | cons kv rest ih =>
    obtain ⟨k', w⟩ := kv
    by_cases hk : k' = k
    · simp [hk] at h ⊢
      exact h
    · simp [hk] at h ⊢
      exact ih h

@[simp]
theorem lookupKey_optStrEntry_append_ne {o : Option String}
    {rest : List (String × Val)} {k' k : String} (h : ¬ k' = k) :
    lookupKey (optStrEntry k' o ++ rest) k = lookupKey rest k := by
  cases o <;> simp [optStrEntry, h]

@[simp]
theorem lookupKey_optIntEntry_append_ne {o : Option Int}
    {rest : List (String × Val)} {k' k : String} (h : ¬ k' = k) :
    lookupKey (optIntEntry k' o ++ rest) k = lookupKey rest k := by
  cases o <;> simp [optIntEntry, h]

theorem lookupKey_optStrEntry_append_self {o : Option String}
    {rest : List (String × Val)} {k : String} (h : lookupKey rest k = none) :
    lookupKey (optStrEntry k o ++ rest) k = o.map Val.vStr := by
  cases o <;> simp [optStrEntry, h]

theorem lookupKey_optIntEntry_append_self {o : Option Int}
    {rest : List (String × Val)} {k : String} (h : lookupKey rest k = none) :
    lookupKey (optIntEntry k o ++ rest) k = o.map Val.vInt := by
  cases o <;> simp [optIntEntry, h]

theorem lookupKey_dumpExtras_of_known {known : List String}
    {extras : List (String × Val)} (hwf : WfExtras known extras) {k : String}
    (hk : known.contains k = true) : lookupKey (dumpExtras extras) k = none := by
  rw [lookupKey_eq_none_iff]
  intro hmem
  obtain ⟨kv, hkv, hfst⟩ := List.mem_map.mp hmem
  have hkv' : kv ∈ extras := (List.mem_filter.mp hkv).1
  have := (hwf kv hkv').1
  rw [hfst] at this
  exact this hk

theorem dumpExtras_eq_self {known : List String} {extras : List (String × Val)}
    (hwf : WfExtras known extras) : dumpExtras extras = extras := by
  apply List.filter_eq_self.mpr
  intro kv hkv
  simp [(hwf kv hkv).2]

theorem parseOptStr_map (o : Option String) : parseOptStr (o.map Val.vStr) = .ok o := by
  cases o <;> rfl

theorem parseOptInt_map (o : Option Int) : parseOptInt (o.map Val.vInt) = .ok o := by
  cases o <;> rfl

theorem parseStrList_map (xs : List String) : parseStrList (xs.map Val.vStr) = .ok xs := by
  induction xs with
  | nil => rfl
  | cons x rest ih => simp [parseStrList, parseStr, ih]


theorem filter_known_of_wf {known : List String} {extras : List (String × Val)}
    (hwf : WfExtras known extras) :
    extras.filter (fun kv => !(known.contains kv.1)) = extras := by
  apply List.filter_eq_self.mpr
  intro kv hkv
  cases hc : known.contains kv.1 with
  | true => exact absurd hc (hwf kv hkv).1
  | false => simp

theorem filter_fixed_append {known : List String} {fixed rest : List (String × Val)}
    (hf : ∀ kv ∈ fixed, known.contains kv.1 = true) :
    (fixed ++ rest).filter (fun kv => !(known.contains kv.1)) =
      rest.filter (fun kv => !(known.contains kv.1)) := by
  induction fixed with
  | nil => simp
  | cons a fx ih =>
    rw [List.cons_append, List.filter_cons]
    have ha : known.contains a.1 = true := hf a (List.mem_cons_self ..)
    rw [ha]
    simp only [Bool.not_true, Bool.false_eq_true, if_false]
    exact ih fun kv hkv => hf kv (List.mem_cons_of_mem _ hkv)

theorem WfExtras_dumpExtras {known : List String} {extras : List (String × Val)}
    (hwf : WfExtras known extras) : WfExtras known (dumpExtras extras) :=
  fun kv hkv => hwf kv (List.mem_filter.mp hkv).1

theorem parse_dump_duckdb (d : DuckDbOutput) (h : WfDuckDb d) :
    parseDuckDb (dumpDuckDb d) = .ok d := by
  obtain ⟨hsync, hextras⟩ := h
  have hex : dumpExtras d.extras = d.extras := dumpExtras_eq_self hextras
  have hpath : lookupKey (dumpDuckDb d) "path" = some (.vStr d.path) := by
    simp [dumpDuckDb]
  have hschema : lookupKey (dumpDuckDb d) "schema" = some (.vStr d.schema_) := by
    simp [dumpDuckDb]
  have hdb : lookupKey (dumpDuckDb d) "database" = some (.vStr d.database) := by
    simp [dumpDuckDb]
  have hthreads : lookupKey (dumpDuckDb d) "threads" = some (.vInt d.threads) := by
    simp [dumpDuckDb]
  have hext : lookupKey (dumpDuckDb d) "extensions" =
      some (.vList (d.extensions.map .vStr)) := by
    simp [dumpDuckDb]
  have hset : lookupKey (dumpDuckDb d) "settings" = some (.vMap d.settings) := by
    simp [dumpDuckDb]
  have hfixed : ∀ kv ∈ ([("type", Val.vStr "duckdb"), ("path", Val.vStr d.path),
      ("schema", Val.vStr d.schema_), ("database", Val.vStr d.database),
      ("threads", Val.vInt d.threads),
      ("extensions", Val.vList (d.extensions.map Val.vStr)),
      ("settings", Val.vMap d.settings)] : List (String × Val)),
      knownDuckDbKeys.contains kv.1 = true := by
    intro kv hkv
    simp at hkv
    rcases hkv with h | h | h | h | h | h | h <;> subst h <;> rfl
  have hfilter : (dumpDuckDb d).filter (fun kv => !(knownDuckDbKeys.contains kv.1)) =
      d.extras := by
    rw [dumpDuckDb, filter_fixed_append hfixed,
      filter_known_of_wf (WfExtras_dumpExtras hextras), hex]
  rw [parseDuckDb, lookupSchemaField, hpath, hschema, hdb, hthreads, hext, hset, hfilter]
  simp only [parseStr, parseInt, parseStrList_map, exceptBind_ok]
  unfold mkDuckDbOutput
  obtain ⟨p, s, db, t, e, st, x⟩ := d
  by_cases hp : p = ":memory:"
  · have hdb' : db = "memory" := hsync hp
    subst hdb'
    simp
  · simp [hp]

theorem filter_known_optStrEntry_append {known : List String} {k : String}
    {o : Option String} {rest : List (String × Val)} (hk : known.contains k = true) :
    (optStrEntry k o ++ rest).filter (fun kv => !(known.contains kv.1)) =
      rest.filter (fun kv => !(known.contains kv.1)) := by
  cases o with
  | none => simp [optStrEntry]
  | some s =>
    refine filter_fixed_append ?_
    intro kv hkv
    simp [optStrEntry] at hkv
    subst hkv
    exact hk

theorem filter_known_optIntEntry_append {known : List String} {k : String}
    {o : Option Int} {rest : List (String × Val)} (hk : known.contains k = true) :
    (optIntEntry k o ++ rest).filter (fun kv => !(known.contains kv.1)) =
      rest.filter (fun kv => !(known.contains kv.1)) := by
  cases o with
  | none => simp [optIntEntry]
  | some n =>
    refine filter_fixed_append ?_
    intro kv hkv
    simp [optIntEntry] at hkv
    subst hkv
    exact hk

@[simp]
theorem optStrEntry_none (k : String) : optStrEntry k none = [] := rfl

@[simp]
theorem optStrEntry_some (k s : String) : optStrEntry k (some s) = [(k, .vStr s)] := rfl

@[simp]
theorem optIntEntry_none (k : String) : optIntEntry k none = [] := rfl

@[simp]
theorem optIntEntry_some (k : String) (n : Int) :
    optIntEntry k (some n) = [(k, .vInt n)] := rfl

theorem parse_dump_databricks (b : DatabricksOutput) (h : WfDatabricks b) :
    parseDatabricks (dumpDatabricks b) = .ok b := by
  obtain ⟨hhost, hslash, hauth, hth, hcr, hvalid, hextras⟩ := h
  have hex : dumpExtras b.extras = b.extras := dumpExtras_eq_self hextras
  have hexn : ∀ k : String, knownDatabricksKeys.contains k = true →
      lookupKey (dumpExtras b.extras) k = none :=
    fun k hk => lookupKey_dumpExtras_of_known hextras hk
  have hschema : lookupKey (dumpDatabricks b) "schema" = some (.vStr b.schema_) := by
    simp [dumpDatabricks]
  have hhostl : lookupKey (dumpDatabricks b) "host" = some (.vStr b.host) := by
    simp [dumpDatabricks]
  have hhttp : lookupKey (dumpDatabricks b) "http_path" = some (.vStr b.http_path) := by
    simp [dumpDatabricks]
  have htok : lookupKey (dumpDatabricks b) "token" = b.token.map Val.vStr := by
    cases hc : b.token with
    | none => simp [dumpDatabricks, hc, hexn "token" (by rfl)]
    | some s => simp [dumpDatabricks, hc]
  have hat : lookupKey (dumpDatabricks b) "auth_type" = b.auth_type.map Val.vStr := by
    cases hc : b.auth_type with
    | none => simp [dumpDatabricks, hc, hexn "auth_type" (by rfl)]
    | some s => simp [dumpDatabricks, hc]
  have hci : lookupKey (dumpDatabricks b) "client_id" = b.client_id.map Val.vStr := by
    cases hc : b.client_id with
    | none => simp [dumpDatabricks, hc, hexn "client_id" (by rfl)]
    | some s => simp [dumpDatabricks, hc]
  have hcs : lookupKey (dumpDatabricks b) "client_secret" =
      b.client_secret.map Val.vStr := by
    cases hc : b.client_secret with
    | none => simp [dumpDatabricks, hc, hexn "client_secret" (by rfl)]
    | some s => simp [dumpDatabricks, hc]
  have hai : lookupKey (dumpDatabricks b) "azure_client_id" =
      b.azure_client_id.map Val.vStr := by
    cases hc : b.azure_client_id with
    | none => simp [dumpDatabricks, hc, hexn "azure_client_id" (by rfl)]
    | some s => simp [dumpDatabricks, hc]
  have has : lookupKey (dumpDatabricks b) "azure_client_secret" =
      b.azure_client_secret.map Val.vStr := by
    cases hc : b.azure_client_secret with
    | none => simp [dumpDatabricks, hc, hexn "azure_client_secret" (by rfl)]
    | some s => simp [dumpDatabricks, hc]
  have hcat : lookupKey (dumpDatabricks b) "catalog" = b.catalog.map Val.vStr := by
    cases hc : b.catalog with
    | none => simp [dumpDatabricks, hc, hexn "catalog" (by rfl)]
    | some s => simp [dumpDatabricks, hc]
  have hthr : lookupKey (dumpDatabricks b) "threads" = some (.vInt b.threads) := by
    simp [dumpDatabricks]
  have hcrl : lookupKey (dumpDatabricks b) "connect_retries" =
      some (.vInt b.connect_retries) := by
    simp [dumpDatabricks]
  have hct : lookupKey (dumpDatabricks b) "connect_timeout" =
      b.connect_timeout.map Val.vInt := by
    cases hc : b.connect_timeout with
    | none => simp [dumpDatabricks, hc, hexn "connect_timeout" (by rfl)]
    | some n => simp [dumpDatabricks, hc]
  have hfixed4 : ∀ kv ∈ ([("type", Val.vStr "databricks"), ("schema", Val.vStr b.schema_),
      ("host", Val.vStr b.host), ("http_path", Val.vStr b.http_path)] :
      List (String × Val)), knownDatabricksKeys.contains kv.1 = true := by
    intro kv hkv
    simp at hkv
    rcases hkv with h | h | h | h <;> subst h <;> rfl
  have hfixed2 : ∀ kv ∈ ([("threads", Val.vInt b.threads),
      ("connect_retries", Val.vInt b.connect_retries)] : List (String × Val)),
      knownDatabricksKeys.contains kv.1 = true := by
    intro kv hkv
    simp at hkv
    rcases hkv with h | h <;> subst h <;> rfl
  have hfilter : (dumpDatabricks b).filter
      (fun kv => !(knownDatabricksKeys.contains kv.1)) = b.extras := by
    rw [dumpDatabricks]
    simp only [List.append_assoc]
    rw [filter_fixed_append hfixed4,
      filter_known_optStrEntry_append (by rfl), filter_known_optStrEntry_append (by rfl),
      filter_known_optStrEntry_append (by rfl), filter_known_optStrEntry_append (by rfl),
      filter_known_optStrEntry_append (by rfl), filter_known_optStrEntry_append (by rfl),
      filter_known_optStrEntry_append (by rfl), filter_fixed_append hfixed2,
      filter_known_optIntEntry_append (by rfl),
      filter_known_of_wf (WfExtras_dumpExtras hextras), hex]
  rw [parseDatabricks, lookupSchemaField, hschema, hhostl, hhttp, htok, hat, hci, hcs,
    hai, has, hcat, hthr, hcrl, hct, hfilter]
  simp only [parseStr, parseInt, parseOptStr_map, parseOptInt_map, exceptBind_ok]
  unfold mkDatabricksOutput
  rcases hauth with hnone | hoauth
  · rw [hnone] at hvalid
    simp only [hnone, if_neg (show ¬ b.threads < 1 by omega),
      if_neg (show ¬ b.connect_retries < 0 by omega), hvalid, hhost, hslash]
    rw [← hnone]
  · rw [hoauth] at hvalid
    simp only [hoauth, if_pos rfl, if_neg (show ¬ b.threads < 1 by omega),
      if_neg (show ¬ b.connect_retries < 0 by omega), hvalid, hhost, hslash]
    rw [← hoauth]
    simp

theorem parse_dump_output (c : OutputConfig) (h : WfOutput c) :
    parseOutput (.vMap (dumpOutput c)) = .ok c := by
  cases c with
  | duckdb d =>
    have h1 : lookupKey (dumpDuckDb d) "type" = some (.vStr "duckdb") := by
      simp [dumpDuckDb]
    simp only [parseOutput, dumpOutput, h1, parse_dump_duckdb d h]
    rfl
  | databricks b =>
    have h1 : lookupKey (dumpDatabricks b) "type" = some (.vStr "databricks") := by
      simp [dumpDatabricks]
    simp only [parseOutput, dumpOutput, h1, parse_dump_databricks b h]
    rfl

theorem parse_dump_outputsList (outs : List (String × OutputConfig))
    (h : ∀ kv ∈ outs, WfOutput kv.2) :
    parseOutputsList (outs.map (fun kv => (kv.1, Val.vMap (dumpOutput kv.2)))) =
      .ok outs := by
  induction outs with
  | nil => rfl
  | cons kv rest ih =>
    obtain ⟨k, c⟩ := kv
    have hc : WfOutput c := h (k, c) (List.mem_cons_self ..)
    have hrest := ih fun kv hkv => h kv (List.mem_cons_of_mem _ hkv)
    simp only [List.map_cons, parseOutputsList, parse_dump_output c hc, hrest]

theorem parse_dump_profile (p : ProfileTarget) (h : WfProfile p) :
    parseProfileTarget (.vMap (dumpProfile p)) = .ok p := by
  obtain ⟨hextras, houts⟩ := h
  have htarget : lookupKey (dumpProfile p) "target" = some (.vStr p.target) := by
    simp [dumpProfile]
  have houtputs : lookupKey (dumpProfile p) "outputs" =
      some (.vMap (p.outputs.map (fun kv => (kv.1, Val.vMap (dumpOutput kv.2))))) := by
    simp [dumpProfile]
  have hfixed : ∀ kv ∈ ([("target", Val.vStr p.target),
      ("outputs", Val.vMap (p.outputs.map (fun kv => (kv.1, Val.vMap (dumpOutput kv.2)))))] :
      List (String × Val)), (["target", "outputs"] : List String).contains kv.1 = true := by
    intro kv hkv
    simp at hkv
    rcases hkv with h | h <;> subst h <;> rfl
  have hfilter : (dumpProfile p).filter
      (fun kv => !((["target", "outputs"] : List String).contains kv.1)) = p.extras := by
    rw [dumpProfile, filter_fixed_append hfixed,
      filter_known_of_wf (WfExtras_dumpExtras hextras), dumpExtras_eq_self hextras]
  simp only [parseProfileTarget, htarget, parseStr, houtputs,
    parse_dump_outputsList p.outputs houts, hfilter]

theorem parse_dump_profilesList (root : List (String × ProfileTarget))
    (h : ∀ kv ∈ root, WfProfile kv.2) :
    parseProfilesList (root.map (fun kv => (kv.1, Val.vMap (dumpProfile kv.2)))) =
      .ok root := by
  induction root with
  | nil => rfl
  | cons kv rest ih =>
    obtain ⟨k, p⟩ := kv
    have hp : WfProfile p := h (k, p) (List.mem_cons_self ..)
    have hrest := ih fun kv hkv => h kv (List.mem_cons_of_mem _ hkv)
    simp only [List.map_cons, parseProfilesList, parse_dump_profile p hp, hrest]

theorem parse_dump_doc (ps : DbtProfiles) (h : WfDoc ps) :
    fromVal (to_yaml ps) = .ok ps := by
  simp only [to_yaml, fromVal, parse_dump_profilesList ps.root h]

theorem keysOf_modifyValue {α : Type} (l : List (String × α)) (k : String) (f : α → α) :
    keysOf (modifyValue l k f) = keysOf l := by
  induction l with
  | nil => rfl
  | cons kv rest ih =>
    obtain ⟨k', v⟩ := kv
    by_cases h : k' = k <;> simp [modifyValue, h] <;>
      simpa [modifyValue, keysOf] using ih

theorem mem_modifyValue {α : Type} {l : List (String × α)} {k : String} {f : α → α}
    {kv' : String × α} (h : kv' ∈ modifyValue l k f) :
    ∃ kv ∈ l, kv' = kv ∨ kv' = (kv.1, f kv.2) := by
  obtain ⟨kv, hkv, heq⟩ := List.mem_map.mp h
  by_cases hk : kv.1 = k
  · exact ⟨kv, hkv, Or.inr (by simp [← heq, hk])⟩
  · exact ⟨kv, hkv, Or.inl (by simp [← heq, hk])⟩

theorem lookupKey_modifyValue_self {α : Type} (l : List (String × α)) (k : String)
    (f : α → α) : lookupKey (modifyValue l k f) k = (lookupKey l k).map f := by
  induction l with
  | nil => rfl
  | cons kv rest ih =>
    obtain ⟨k', v⟩ := kv
    by_cases h : k' = k
    · simp [modifyValue, h]
    · simp [modifyValue, h]
      simpa [modifyValue] using ih

theorem lookupKey_modifyValue_ne {α : Type} (l : List (String × α)) {k k' : String}
    (f : α → α) (h : k' ≠ k) :
    lookupKey (modifyValue l k f) k' = lookupKey l k' := by
  induction l with
  | nil => rfl
  | cons kv rest ih =>
    obtain ⟨k'', v⟩ := kv
    by_cases h2 : k'' = k
    · subst h2
      have : ¬ k'' = k' := fun e => h (e.symm)
      simp [modifyValue, this]
      simpa [modifyValue] using ih
    · by_cases h3 : k'' = k'
      · simp [modifyValue, h2, h3, h]
      · simp [modifyValue, h2, h3]
        simpa [modifyValue] using ih

theorem lookupKey_removeKey_ne {α : Type} (l : List (String × α)) {k k' : String}
    (h : k' ≠ k) : lookupKey (removeKey l k) k' = lookupKey l k' := by
  induction l with
  | nil => rfl
  | cons kv rest ih =>
    obtain ⟨k'', v⟩ := kv
    by_cases h2 : k'' = k
    · subst h2
      have : ¬ k'' = k' := fun e => h (e.symm)
      simp [removeKey, this]
      simpa [removeKey] using ih
    · by_cases h3 : k'' = k'
      · simp [removeKey, h2, h3, List.filter_cons, h]
      · simp [removeKey, h2, h3]
        simpa [removeKey] using ih

theorem mem_removeKey {α : Type} {l : List (String × α)} {k : String}
    {kv : String × α} (h : kv ∈ removeKey l k) : kv ∈ l :=
  (List.mem_filter.mp h).1

theorem NodupKeys_modifyValue {α : Type} {l : List (String × α)} (k : String)
    (f : α → α) (h : NodupKeys l) : NodupKeys (modifyValue l k f) := by
  unfold NodupKeys at h ⊢
  rwa [keysOf_modifyValue]

theorem NodupKeys_removeKey {α : Type} {l : List (String × α)} (k : String)
    (h : NodupKeys l) : NodupKeys (removeKey l k) := by
  unfold NodupKeys at h ⊢
  exact h.sublist (List.Sublist.map _ (List.filter_sublist _))

theorem NodupKeys_append_fresh {α : Type} {l : List (String × α)} {k : String}
    (v : α) (h : NodupKeys l) (hk : lookupKey l k = none) :
    NodupKeys (l ++ [(k, v)]) := by
  unfold NodupKeys at h ⊢
  rw [keysOf_append]
  have hnot : k ∉ keysOf l := (lookupKey_eq_none_iff l k).mp hk
  simp [List.nodup_append, h]
  exact hnot

theorem removeKey_ne_nil {α : Type} {l : List (String × α)} {k : String}
    (hnd : NodupKeys l) (hmem : (lookupKey l k).isSome = true)
    (hlen : l.length ≠ 1) : removeKey l k ≠ [] := by
  intro hempty
  have hall : ∀ kv ∈ l, kv.1 = k := by
    intro kv hkv
    have := List.filter_eq_nil_iff.mp hempty kv hkv
    simpa using this
  match l, hlen with
  | [], _ => simp [lookupKey] at hmem
  | [kv], h1 => exact h1 rfl
  | kv1 :: kv2 :: rest, _ =>
    have h1 : kv1.1 = k := hall kv1 (by simp)
    have h2 : kv2.1 = k := hall kv2 (by simp)
    unfold NodupKeys keysOf at hnd
    simp [List.nodup_cons] at hnd
    exact hnd.1.1 (by rw [h1, ← h2])

/-- A set optional string field carries a non-empty value (the natural
reading of a field being set in a YAML profile). -/
def OptSetNonEmpty (o : Option String) : Prop := ∀ s, o = some s → s ≠ ""

/-- C1: constructing a DatabricksOutputConfig succeeds for exactly these
authentication-field combinations and no others: no auth field set;
token only; auth_type oauth only; oauth with both client_id and
client_secret and no azure credentials; oauth with both
azure_client_id and azure_client_secret and no generic credentials.
Every other combination of the six presence flags fails with the
SchemaError kind. -/
theorem C1_databricks_auth_combinations
    (token client_id client_secret azure_client_id azure_client_secret : Option String)
    (oauth : Bool)
    (hci : OptSetNonEmpty client_id) (hcs : OptSetNonEmpty client_secret)
    (hai : OptSetNonEmpty azure_client_id) (has : OptSetNonEmpty azure_client_secret) :
    (∃ out, mkDatabricksOutput "s" "host" "/p" token
        (if oauth then some "oauth" else none) client_id client_secret
        azure_client_id azure_client_secret none 1 0 none [] = .ok out) ↔
      ((token = none ∧ oauth = false ∧ client_id = none ∧ client_secret = none ∧
          azure_client_id = none ∧ azure_client_secret = none) ∨
       (token.isSome = true ∧ oauth = false ∧ client_id = none ∧ client_secret = none ∧
          azure_client_id = none ∧ azure_client_secret = none) ∨
       (token = none ∧ oauth = true ∧ client_id = none ∧ client_secret = none ∧
          azure_client_id = none ∧ azure_client_secret = none) ∨
       (token = none ∧ oauth = true ∧ client_id.isSome = true ∧
          client_secret.isSome = true ∧
          azure_client_id = none ∧ azure_client_secret = none) ∨
       (token = none ∧ oauth = true ∧ client_id = none ∧ client_secret = none ∧
          azure_client_id.isSome = true ∧ azure_client_secret.isSome = true)) := by
  rcases token with _ | ts <;>
    rcases client_id with _ | cis <;>
    rcases client_secret with _ | css <;>
    rcases azure_client_id with _ | ais <;>
    rcases azure_client_secret with _ | ass <;>
    cases oauth <;>
    simp_all [mkDatabricksOutput, validate_auth_method, optTruthy, OptSetNonEmpty]

/-- Witness for C1 at the oauth machine-credential combination. -/
theorem C1_witness :
    ∃ out, mkDatabricksOutput "s" "host" "/p" none
      (if true then some "oauth" else none) (some "id") (some "secret")
      none none none 1 0 none [] = .ok out :=
  (C1_databricks_auth_combinations none (some "id") (some "secret") none none true
    (fun s h => by cases h; decide) (fun s h => by cases h; decide)
    (fun s h => nomatch h) (fun s h => nomatch h)).mpr
    (Or.inr (Or.inr (Or.inr (Or.inl ⟨rfl, rfl, rfl, rfl, rfl, rfl⟩))))

/-- Counterexample to C3 as stated: on the DuckDB variant a threads
value below 1 is accepted by construction from a YAML record, because
DuckDbOutput declares no threads validator; only DatabricksOutput does. -/
theorem C3_counterexample :
    parseOutput (.vMap [("type", .vStr "duckdb"), ("threads", .vInt 0)]) =
      .ok (.duckdb ⟨":memory:", "main", "memory", 0, [], [], []⟩) := rfl

/-- C3 amended: on the Databricks variant, construction with
threads below 1 always fails, and with valid remaining fields it fails
with exactly the message threads must be at least 1, while threads of at
least 1 passes that check; the DuckDB variant performs no threads
validation and construction succeeds for every integer threads value. -/
theorem C3_threads_validation :
    (∀ (threads : Int) (schema_ host http_path : String), threads < 1 →
      mkDatabricksOutput schema_ host http_path (some "tok") none none none none
        none none threads 0 none [] = .error "threads must be at least 1") ∧
    (∀ (threads connect_retries : Int) (schema_ host http_path : String)
      (token auth_type client_id client_secret azure_client_id
       azure_client_secret catalog : Option String)
      (connect_timeout : Option Int) (extras : List (String × Val)), threads < 1 →
      ∀ out, mkDatabricksOutput schema_ host http_path token auth_type client_id
        client_secret azure_client_id azure_client_secret catalog threads
        connect_retries connect_timeout extras ≠ .ok out) ∧
    (∀ (threads : Int) (schema_ host http_path : String), 1 ≤ threads →
      ∃ out, mkDatabricksOutput schema_ host http_path (some "tok") none none none
        none none none threads 0 none [] = .ok out ∧ out.threads = threads) ∧
    (∀ (threads : Int) (path schema_ database : String) (extensions : List String)
      (settings extras : List (String × Val)),
      ∃ out, mkDuckDbOutput path schema_ database threads extensions settings
        extras = .ok out ∧ out.threads = threads) := by
  refine ⟨?_, ?_, ?_, ?_⟩
  · intro threads schema_ host http_path h
    simp only [mkDatabricksOutput]
    rw [if_pos h]
  · intro threads connect_retries schema_ host http_path token auth_type client_id
      client_secret azure_client_id azure_client_secret catalog connect_timeout
      extras h out
    cases auth_type with
    | none => simp [mkDatabricksOutput, h]
    | some s =>
      by_cases hs : s = "oauth" <;> simp [mkDatabricksOutput, h, hs]
  · intro threads schema_ host http_path h
    have hmk : mkDatabricksOutput schema_ host http_path (some "tok") none none none
        none none none threads 0 none [] = .ok ⟨schema_, strip_host_protocol host,
        ensure_http_path_starts_with_slash http_path, some "tok", none, none, none,
        none, none, none, threads, 0, none, []⟩ := by
      simp only [mkDatabricksOutput]
      rw [if_neg (show ¬ threads < 1 by omega)]
      rfl
    exact ⟨_, hmk, rfl⟩
  · intro threads path schema_ database extensions settings extras
    exact ⟨_, rfl, rfl⟩

/-- Witness for C3 at concrete inputs. -/
theorem C3_witness :
    mkDatabricksOutput "s" "h" "/p" (some "tok") none none none none none none
      0 0 none [] = .error "threads must be at least 1" ∧
    (∃ out, mkDatabricksOutput "s" "h" "/p" (some "tok") none none none none none
      none 4 0 none [] = .ok out ∧ out.threads = 4) ∧
    (∃ out, mkDuckDbOutput "dev.duckdb" "main" "main" 0 [] [] [] = .ok out ∧
      out.threads = 0) :=
  ⟨C3_threads_validation.1 0 "s" "h" "/p" (by decide),
   C3_threads_validation.2.2.1 4 "s" "h" "/p" (by decide),
   C3_threads_validation.2.2.2 0 "dev.duckdb" "main" "main" [] [] []⟩

/-- C8: constructing a DatabricksOutputConfig canonicalizes host and
http_path unconditionally and without error: a leading https or http
protocol prefix is stripped from host, a leading slash is inserted into
http_path when missing, and in particular the host
https://x.databricks.com is stored as x.databricks.com and the
http_path sql/abc is stored as /sql/abc. -/
theorem C8_host_path_normalization :
    (∀ host http_path : String, ∃ out : DatabricksOutput,
      mkDatabricksOutput "s" host http_path (some "tok") none none none none none
        none 1 0 none [] = .ok out ∧
      out.host = strip_host_protocol host ∧
      out.http_path = ensure_http_path_starts_with_slash http_path) ∧
    (∀ s : String, strip_host_protocol ("https://" ++ s) = s) ∧
    (∀ s : String, strip_host_protocol ("http://" ++ s) = s) ∧
    (∀ s : String, "/".data.isPrefixOf s.data = false →
      ensure_http_path_starts_with_slash s = "/" ++ s) ∧
    strip_host_protocol "https://x.databricks.com" = "x.databricks.com" ∧
    ensure_http_path_starts_with_slash "sql/abc" = "/sql/abc" := by
  refine ⟨?_, ?_, ?_, ?_, by decide, by decide⟩
  · intro host http_path
    exact ⟨_, rfl, rfl, rfl⟩
  · intro s
    have h1 : ("https://".data).isPrefixOf ("https://" ++ s).data = true := by
      simp [String.data_append, List.isPrefixOf]
    have h2 : (("https://" ++ s).data).drop 8 = s.data := by
      rw [String.data_append]
      have hl : ("https://".data).length = 8 := by decide
      rw [← hl, List.drop_left]
    rw [strip_host_protocol, if_pos h1, h2]
  · intro s
    have h0 : ("https://".data).isPrefixOf ("http://" ++ s).data = false := by
      simp [String.data_append, List.isPrefixOf]
    have h1 : ("http://".data).isPrefixOf ("http://" ++ s).data = true := by
      simp [String.data_append, List.isPrefixOf]
    have h2 : (("http://" ++ s).data).drop 7 = s.data := by
      rw [String.data_append]
      have hl : ("http://".data).length = 7 := by decide
      rw [← hl, List.drop_left]
    rw [strip_host_protocol, if_neg (by simp [h0]), if_pos h1, h2]
  · intro s h
    rw [ensure_http_path_starts_with_slash, if_neg (by simp [h])]

/-- Witness for C8 at the concrete scenario inputs. -/
theorem C8_witness :
    (∃ out : DatabricksOutput,
      mkDatabricksOutput "s" "https://x.databricks.com" "sql/abc" (some "tok") none
        none none none none none 1 0 none [] = .ok out ∧
      out.host = strip_host_protocol "https://x.databricks.com" ∧
      out.http_path = ensure_http_path_starts_with_slash "sql/abc") ∧
    strip_host_protocol ("https://" ++ "unit.test") = "unit.test" ∧
    ("/".data.isPrefixOf "sql/abc".data = false ∧
      ensure_http_path_starts_with_slash "sql/abc" = "/" ++ "sql/abc") :=
  ⟨C8_host_path_normalization.1 "https://x.databricks.com" "sql/abc",
   C8_host_path_normalization.2.1 "unit.test",
   by decide,
   C8_host_path_normalization.2.2.2.1 "sql/abc" (by decide)⟩

/-- C9: at the outcome of loading, a syntactically invalid text gives
the MalformedDocumentError kind, a loaded value that is not a mapping
at the top level gives the SchemaError kind with the message
profiles.yml must be a YAML mapping, and parsing succeeds only on a
loaded top-level mapping. -/
theorem C9_from_yaml_error_kinds :
    (∀ e : String, from_yaml (.error e) =
      .error (.malformedDocument ("Invalid YAML: " ++ e))) ∧
    (∀ v : Val, (∀ kvs, v ≠ .vMap kvs) →
      from_yaml (.ok v) =
        .error (.schemaError "profiles.yml must be a YAML mapping")) ∧
    (∀ (r : Except String Val) (d : DbtProfiles), from_yaml r = .ok d →
      ∃ kvs, r = .ok (.vMap kvs)) := by
  refine ⟨fun e => rfl, ?_, ?_⟩
  · intro v h
    cases v with
    | vMap kvs => exact absurd rfl (h kvs)
    | vNull => rfl
    | vBool b => rfl
    | vInt n => rfl
    | vStr s => rfl
    | vList xs => rfl
  · intro r d h
    cases r with
    | error e => exact absurd h (by simp [from_yaml])
    | ok v =>
      cases v with
      | vMap kvs => exact ⟨kvs, rfl⟩
      | vNull => exact absurd h (by simp [from_yaml, fromVal])
      | vBool b => exact absurd h (by simp [from_yaml, fromVal])
      | vInt n => exact absurd h (by simp [from_yaml, fromVal])
      | vStr s => exact absurd h (by simp [from_yaml, fromVal])
      | vList xs => exact absurd h (by simp [from_yaml, fromVal])

/-- Witness for C9 at concrete loader outcomes. -/
theorem C9_witness :
    from_yaml (.error "bad") = .error (.malformedDocument ("Invalid YAML: " ++ "bad")) ∧
    from_yaml (.ok (.vList [])) =
      .error (.schemaError "profiles.yml must be a YAML mapping") ∧
    (∃ kvs, (Except.ok (Val.vMap []) : Except String Val) = .ok (.vMap kvs)) :=
  ⟨C9_from_yaml_error_kinds.1 "bad",
   C9_from_yaml_error_kinds.2.1 (.vList []) (fun _ h => Val.noConfusion h),
   C9_from_yaml_error_kinds.2.2 (.ok (.vMap [])) ⟨[]⟩ rfl⟩

theorem lookupKey_some_mem {α : Type} {l : List (String × α)} {k : String} {v : α}
    (h : lookupKey l k = some v) : (k, v) ∈ l := by
  induction l with
  | nil => simp [lookupKey] at h
  | cons kv rest ih =>
    obtain ⟨k', w⟩ := kv
    by_cases hk : k' = k
    · subst hk
      simp at h
      subst h
      exact List.mem_cons_self ..
    · simp [hk] at h
      exact List.mem_cons_of_mem _ (ih h)

theorem lookupKey_of_mem_nodup {α : Type} {l : List (String × α)}
    (hnd : NodupKeys l) {kv : String × α} (h : kv ∈ l) :
    lookupKey l kv.1 = some kv.2 := by
  induction l with
  | nil => simp at h
  | cons kv0 rest ih =>
    obtain ⟨k0, v0⟩ := kv0
    unfold NodupKeys at hnd
    rw [keysOf_cons] at hnd
    have hnd2 := List.nodup_cons.mp hnd
    rcases List.mem_cons.mp h with h1 | h1
    · subst h1
      simp
    · have hk : k0 ≠ kv.1 := by
        intro he
        exact hnd2.1 (he ▸ List.mem_map.mpr ⟨kv, h1, rfl⟩)
      simp [hk]
      exact ih hnd2.2 h1

theorem mem_modifyValue_cases {α : Type} {l : List (String × α)} {k : String}
    {f : α → α} {kv' : String × α} (h : kv' ∈ modifyValue l k f) :
    ∃ kv ∈ l, (kv.1 ≠ k ∧ kv' = kv) ∨ (kv.1 = k ∧ kv' = (kv.1, f kv.2)) := by
  obtain ⟨kv, hkv, heq⟩ := List.mem_map.mp h
  by_cases hk : kv.1 = k
  · exact ⟨kv, hkv, Or.inr ⟨hk, by simp [← heq, hk]⟩⟩
  · exact ⟨kv, hkv, Or.inl ⟨hk, by simp [← heq, hk]⟩⟩

theorem lookupKey_setKey_self (l : List (String × Val)) (k : String) (v : Val) :
    lookupKey (setKey l k v) k = some v := by
  unfold setKey
  cases hl : lookupKey l k with
  | some w =>
    rw [if_pos (by simp [hl])]
    rw [lookupKey_modifyValue_self, hl]
    rfl
  | none =>
    rw [if_neg (by simp [hl])]
    rw [lookupKey_append_of_none _ hl]
    simp

theorem lookupKey_setKey_ne (l : List (String × Val)) {k k' : String} (v : Val)
    (h : k' ≠ k) : lookupKey (setKey l k v) k' = lookupKey l k' := by
  unfold setKey
  cases hl : lookupKey l k with
  | some w =>
    rw [if_pos (by simp [hl])]
    exact lookupKey_modifyValue_ne l _ h
  | none =>
    rw [if_neg (by simp [hl])]
    cases hl' : lookupKey l k' with
    | some w' => exact lookupKey_append_of_some _ hl'
    | none =>
      rw [lookupKey_append_of_none _ hl']
      have h2 : ¬ k = k' := fun e => h e.symm
      simp [h2]

/-- The combined structural state of a document reachable in Python:
dict keys are unique and every profile keeps at least one output. -/
def DocInv (ps : DbtProfiles) : Prop := WfKeys ps ∧ EveryProfileHasOutput ps

theorem pres_add_profile (ps : DbtProfiles) (h : DocInv ps)
    (name target oname : String) (cfg : OutputConfig) :
    DocInv (add_profile ps name target oname cfg).2 := by
  obtain ⟨⟨hnd, hout⟩, hinv⟩ := h
  unfold add_profile
  by_cases hc : (lookupKey ps.root name).isSome
  · simpa [hc] using ⟨⟨hnd, hout⟩, hinv⟩
  · simp only [hc, if_false, Bool.false_eq_true]
    refine ⟨⟨?_, ?_⟩, ?_⟩
    · exact NodupKeys_append_fresh _ hnd (Option.not_isSome_iff_eq_none.mp hc)
    · intro kv hkv
      rcases List.mem_append.mp hkv with hm | hm
      · exact hout kv hm
      · simp at hm
        subst hm
        unfold NodupKeys
        simp
    · intro kv hkv
      rcases List.mem_append.mp hkv with hm | hm
      · exact hinv kv hm
      · simp at hm
        subst hm
        simp

@[simp]
theorem DbtProfiles_root_mk (l : List (String × ProfileTarget)) :
    (⟨l⟩ : DbtProfiles).root = l := rfl

theorem value_cases_modifyValue {α : Type} {l : List (String × α)} {k : String}
    {f : α → α} (P : α → Prop) (hl : ∀ kv ∈ l, P kv.2)
    (hf : ∀ kv ∈ l, kv.1 = k → P (f kv.2)) :
    ∀ kv' ∈ modifyValue l k f, P kv'.2 := by
  intro kv' hkv'
  obtain ⟨kv, hkv, hcase⟩ := mem_modifyValue_cases hkv'
  rcases hcase with ⟨_, heq⟩ | ⟨hkey, heq⟩
  · rw [heq]
    exact hl kv hkv
  · rw [heq]
    exact hf kv hkv hkey

theorem pres_update_profile_target (ps : DbtProfiles) (h : DocInv ps)
    (name target : String) :
    DocInv (update_profile_target ps name target).2 := by
  obtain ⟨⟨hnd, hout⟩, hinv⟩ := h
  unfold update_profile_target
  by_cases hc : (lookupKey ps.root name).isNone
  · simpa [hc] using ⟨⟨hnd, hout⟩, hinv⟩
  · simp only [hc, if_false, Bool.false_eq_true]
    unfold DocInv WfKeys EveryProfileHasOutput
    simp only [DbtProfiles_root_mk]
    refine ⟨⟨NodupKeys_modifyValue _ _ hnd, ?_⟩, ?_⟩
    · refine value_cases_modifyValue (fun p : ProfileTarget => NodupKeys p.outputs) ?_ ?_
      · exact hout
      · exact fun kv hkv _ => hout kv hkv
    · refine value_cases_modifyValue (fun p : ProfileTarget => p.outputs ≠ []) ?_ ?_
      · exact hinv
      · exact fun kv hkv _ => hinv kv hkv

theorem pres_delete_profile (ps : DbtProfiles) (h : DocInv ps) (name : String) :
    DocInv (delete_profile ps name).2 := by
  obtain ⟨⟨hnd, hout⟩, hinv⟩ := h
  unfold delete_profile
  by_cases hc : (lookupKey ps.root name).isNone
  · simpa [hc] using ⟨⟨hnd, hout⟩, hinv⟩
  · simp only [hc, if_false, Bool.false_eq_true]
    unfold DocInv WfKeys EveryProfileHasOutput
    simp only [DbtProfiles_root_mk]
    exact ⟨⟨NodupKeys_removeKey _ hnd,
      fun kv hkv => hout kv (mem_removeKey hkv)⟩,
      fun kv hkv => hinv kv (mem_removeKey hkv)⟩

theorem pres_add_output (ps : DbtProfiles) (h : DocInv ps)
    (pn oname : String) (cfg : OutputConfig) :
    DocInv (add_output ps pn oname cfg).2 := by
  obtain ⟨⟨hnd, hout⟩, hinv⟩ := h
  unfold add_output
  cases hm : lookupKey ps.root pn with
  | none => exact ⟨⟨hnd, hout⟩, hinv⟩
  | some prof =>
    by_cases ho : (lookupKey prof.outputs oname).isSome
    · simpa [ho] using ⟨⟨hnd, hout⟩, hinv⟩
    · simp only [ho, if_false, Bool.false_eq_true]
      unfold DocInv WfKeys EveryProfileHasOutput
      simp only [DbtProfiles_root_mk]
      refine ⟨⟨NodupKeys_modifyValue _ _ hnd, ?_⟩, ?_⟩
      · refine value_cases_modifyValue (fun p : ProfileTarget => NodupKeys p.outputs) hout ?_
        intro kv hkv hkey
        have hlk := lookupKey_of_mem_nodup hnd hkv
        rw [hkey, hm] at hlk
        have hkv2 : kv.2 = prof := by
          injection hlk with h2
          exact h2.symm
        refine NodupKeys_append_fresh _ (hout kv hkv) ?_
        rw [hkv2]
        exact Option.not_isSome_iff_eq_none.mp ho
      · refine value_cases_modifyValue (fun p : ProfileTarget => p.outputs ≠ []) hinv ?_
        intro kv hkv hkey
        simp

theorem pres_update_output (ps : DbtProfiles) (h : DocInv ps)
    (pn oname : String) (path : Option String) (threads : Option Int) :
    DocInv (update_output ps pn oname path threads).2 := by
  obtain ⟨⟨hnd, hout⟩, hinv⟩ := h
  unfold update_output
  cases hm : lookupKey ps.root pn with
  | none => exact ⟨⟨hnd, hout⟩, hinv⟩
  | some prof =>
    by_cases ho : (lookupKey prof.outputs oname).isNone
    · simpa [ho] using ⟨⟨hnd, hout⟩, hinv⟩
    · simp only [ho, if_false, Bool.false_eq_true]
      unfold DocInv WfKeys EveryProfileHasOutput
      simp only [DbtProfiles_root_mk]
      refine ⟨⟨NodupKeys_modifyValue _ _ hnd, ?_⟩, ?_⟩
      · refine value_cases_modifyValue (fun p : ProfileTarget => NodupKeys p.outputs) hout ?_
        intro kv hkv hkey
        unfold NodupKeys
        rw [keysOf_modifyValue]
        exact hout kv hkv
      · refine value_cases_modifyValue (fun p : ProfileTarget => p.outputs ≠ []) hinv ?_
        intro kv hkv hkey hempty
        exact hinv kv hkv (by simpa [modifyValue] using hempty)

theorem pres_delete_output (ps : DbtProfiles) (h : DocInv ps) (pn oname : String) :
    DocInv (delete_output ps pn oname).2 := by
  obtain ⟨⟨hnd, hout⟩, hinv⟩ := h
  unfold delete_output
  cases hm : lookupKey ps.root pn with
  | none => exact ⟨⟨hnd, hout⟩, hinv⟩
  | some prof =>
    by_cases ho : (lookupKey prof.outputs oname).isNone
    · simpa [ho] using ⟨⟨hnd, hout⟩, hinv⟩
    · by_cases hlen : prof.outputs.length = 1
      · simpa [ho, hlen] using ⟨⟨hnd, hout⟩, hinv⟩
      · simp only [ho, hlen, if_false, Bool.false_eq_true]
        unfold DocInv WfKeys EveryProfileHasOutput
        simp only [DbtProfiles_root_mk]
        refine ⟨⟨NodupKeys_modifyValue _ _ hnd, ?_⟩, ?_⟩
        · refine value_cases_modifyValue (fun p : ProfileTarget => NodupKeys p.outputs) hout ?_
          intro kv hkv hkey
          exact NodupKeys_removeKey _ (hout kv hkv)
        · refine value_cases_modifyValue (fun p : ProfileTarget => p.outputs ≠ []) hinv ?_
          intro kv hkv hkey
          have hlk := lookupKey_of_mem_nodup hnd hkv
          rw [hkey, hm] at hlk
          have hkv2 : kv.2 = prof := by
            injection hlk with h2
            exact h2.symm
          refine removeKey_ne_nil (hout kv hkv) ?_ ?_
          · cases hx : lookupKey kv.2.outputs oname with
            | none =>
              rw [hkv2] at hx
              exact absurd (by simp [hx]) ho
            | some c => simp
          · rw [hkv2]
            exact hlen

/-- C5: starting from a document with unique dict keys in which every
profile has at least one output, every Editor operation preserves that
property, and deleting the sole output of a profile fails with the
LastOutputError kind (a ValueError in editor.py) leaving the document
unchanged. -/
theorem C5_every_profile_keeps_an_output (ps : DbtProfiles) (h : DocInv ps) :
    (∀ name target oname cfg,
      DocInv (add_profile ps name target oname cfg).2) ∧
    (∀ name target, DocInv (update_profile_target ps name target).2) ∧
    (∀ name, DocInv (delete_profile ps name).2) ∧
    (∀ pn oname cfg, DocInv (add_output ps pn oname cfg).2) ∧
    (∀ pn oname path threads, DocInv (update_output ps pn oname path threads).2) ∧
    (∀ pn oname, DocInv (delete_output ps pn oname).2) ∧
    (∀ pn oname prof, lookupKey ps.root pn = some prof →
      (lookupKey prof.outputs oname).isSome = true → prof.outputs.length = 1 →
      delete_output ps pn oname = (some (.lastOutput pn), ps)) := by
  refine ⟨fun name target oname cfg => pres_add_profile ps h name target oname cfg,
    fun name target => pres_update_profile_target ps h name target,
    fun name => pres_delete_profile ps h name,
    fun pn oname cfg => pres_add_output ps h pn oname cfg,
    fun pn oname path threads => pres_update_output ps h pn oname path threads,
    fun pn oname => pres_delete_output ps h pn oname, ?_⟩
  intro pn oname prof hm ho hlen
  unfold delete_output
  simp only [hm]
  rw [if_neg (by simp [Option.isNone_iff_eq_none]; intro he; rw [he] at ho; simp at ho)]
  rw [if_pos hlen]

/-- Witness for C5 on a concrete one-profile, one-output document. -/
theorem C5_witness :
    DocInv (delete_profile ⟨[("default", ⟨"dev",
      [("dev", .duckdb ⟨"dev.duckdb", "main", "main", 1, [], [], []⟩)], []⟩)]⟩
      "default").2 ∧
    delete_output ⟨[("other", ⟨"staging",
      [("staging", .duckdb ⟨"s.duckdb", "main", "main", 1, [], [], []⟩)], []⟩)]⟩
      "other" "staging" =
      (some (.lastOutput "other"), ⟨[("other", ⟨"staging",
        [("staging", .duckdb ⟨"s.duckdb", "main", "main", 1, [], [], []⟩)], []⟩)]⟩) := by
  constructor
  · exact (C5_every_profile_keeps_an_output _ (by
      constructor
      · constructor
        · unfold NodupKeys
          decide
        · intro kv hkv
          simp at hkv
          subst hkv
          unfold NodupKeys
          decide
      · intro kv hkv
        simp at hkv
        subst hkv
        simp)).2.2.1 "default"
  · exact (C5_every_profile_keeps_an_output _ (by
      constructor
      · constructor
        · unfold NodupKeys
          decide
        · intro kv hkv
          simp at hkv
          subst hkv
          unfold NodupKeys
          decide
      · intro kv hkv
        simp at hkv
        subst hkv
        simp)).2.2.2.2.2.2 "other" "staging" _ rfl rfl rfl

/-- C6: every mutating Editor operation that fails with its typed
precondition error leaves the document unchanged, so its serialization
is identical before and after the failed call; in particular
add_profile on an existing name fails with ProfileAlreadyExistsError
and add_output on an existing output name fails with
OutputAlreadyExistsError. -/
theorem C6_failed_operations_leave_document_unchanged (ps : DbtProfiles) :
    (∀ name target oname cfg e, (add_profile ps name target oname cfg).1 = some e →
      (add_profile ps name target oname cfg).2 = ps ∧
      to_yaml (add_profile ps name target oname cfg).2 = to_yaml ps) ∧
    (∀ name target e, (update_profile_target ps name target).1 = some e →
      (update_profile_target ps name target).2 = ps ∧
      to_yaml (update_profile_target ps name target).2 = to_yaml ps) ∧
    (∀ name e, (delete_profile ps name).1 = some e →
      (delete_profile ps name).2 = ps ∧
      to_yaml (delete_profile ps name).2 = to_yaml ps) ∧
    (∀ pn oname cfg e, (add_output ps pn oname cfg).1 = some e →
      (add_output ps pn oname cfg).2 = ps ∧
      to_yaml (add_output ps pn oname cfg).2 = to_yaml ps) ∧
    (∀ pn oname path threads e, (update_output ps pn oname path threads).1 = some e →
      (update_output ps pn oname path threads).2 = ps ∧
      to_yaml (update_output ps pn oname path threads).2 = to_yaml ps) ∧
    (∀ pn oname e, (delete_output ps pn oname).1 = some e →
      (delete_output ps pn oname).2 = ps ∧
      to_yaml (delete_output ps pn oname).2 = to_yaml ps) ∧
    (∀ name, (lookupKey ps.root name).isSome = true → ∀ target oname cfg,
      add_profile ps name target oname cfg = (some (.profileAlreadyExists name), ps)) ∧
    (∀ pn oname prof, lookupKey ps.root pn = some prof →
      (lookupKey prof.outputs oname).isSome = true → ∀ cfg,
      add_output ps pn oname cfg = (some (.outputAlreadyExists pn oname), ps)) := by
  refine ⟨?_, ?_, ?_, ?_, ?_, ?_, ?_, ?_⟩
  · intro name target oname cfg e he
    unfold add_profile at he ⊢
    by_cases hc : (lookupKey ps.root name).isSome <;> simp [hc] at he ⊢
  · intro name target e he
    unfold update_profile_target at he ⊢
    by_cases hc : (lookupKey ps.root name).isNone <;> simp [hc] at he ⊢
  · intro name e he
    unfold delete_profile at he ⊢
    by_cases hc : (lookupKey ps.root name).isNone <;> simp [hc] at he ⊢
  · intro pn oname cfg e he
    unfold add_output at he ⊢
    cases hm : lookupKey ps.root pn with
    | none => exact ⟨rfl, rfl⟩
    | some prof =>
      simp only [hm] at he ⊢
      by_cases hc : (lookupKey prof.outputs oname).isSome <;> simp [hc] at he ⊢
  · intro pn oname path threads e he
    unfold update_output at he ⊢
    cases hm : lookupKey ps.root pn with
    | none => exact ⟨rfl, rfl⟩
    | some prof =>
      simp only [hm] at he ⊢
      by_cases hc : (lookupKey prof.outputs oname).isNone <;> simp [hc] at he ⊢
  · intro pn oname e he
    unfold delete_output at he ⊢
    cases hm : lookupKey ps.root pn with
    | none => exact ⟨rfl, rfl⟩
    | some prof =>
      simp only [hm] at he ⊢
      by_cases hc : (lookupKey prof.outputs oname).isNone
      · simp [hc] at he ⊢
      · by_cases hlen : prof.outputs.length = 1 <;> simp [hc, hlen] at he ⊢
  · intro name hc target oname cfg
    unfold add_profile
    rw [if_pos hc]
  · intro pn oname prof hm ho cfg
    unfold add_output
    simp only [hm]
    rw [if_pos ho]

/-- Witness for C6 on a concrete document with an existing profile and
output. -/
theorem C6_witness :
    add_profile ⟨[("default", ⟨"dev",
        [("dev", .duckdb ⟨"dev.duckdb", "main", "main", 1, [], [], []⟩)], []⟩)]⟩
        "default" "dev" "dev"
        (.duckdb ⟨"x.duckdb", "main", "main", 1, [], [], []⟩) =
      (some (.profileAlreadyExists "default"),
        ⟨[("default", ⟨"dev",
          [("dev", .duckdb ⟨"dev.duckdb", "main", "main", 1, [], [], []⟩)], []⟩)]⟩) ∧
    add_output ⟨[("default", ⟨"dev",
        [("dev", .duckdb ⟨"dev.duckdb", "main", "main", 1, [], [], []⟩)], []⟩)]⟩
        "default" "dev"
        (.duckdb ⟨"x.duckdb", "main", "main", 1, [], [], []⟩) =
      (some (.outputAlreadyExists "default" "dev"),
        ⟨[("default", ⟨"dev",
          [("dev", .duckdb ⟨"dev.duckdb", "main", "main", 1, [], [], []⟩)], []⟩)]⟩) :=
  ⟨(C6_failed_operations_leave_document_unchanged ⟨[("default", ⟨"dev",
      [("dev", .duckdb ⟨"dev.duckdb", "main", "main", 1, [], [], []⟩)], []⟩)]⟩).2.2.2.2.2.2.1 "default" rfl
      "dev" "dev" (.duckdb ⟨"x.duckdb", "main", "main", 1, [], [], []⟩),
   (C6_failed_operations_leave_document_unchanged ⟨[("default", ⟨"dev",
      [("dev", .duckdb ⟨"dev.duckdb", "main", "main", 1, [], [], []⟩)], []⟩)]⟩).2.2.2.2.2.2.2 "default" "dev"
      ⟨"dev", [("dev", .duckdb ⟨"dev.duckdb", "main", "main", 1, [], [], []⟩)], []⟩
      rfl rfl (.duckdb ⟨"x.duckdb", "main", "main", 1, [], [], []⟩)⟩

/-- C7: on an existing profile and output, update_output succeeds and
changes only the supplied fields of that one output: omitted path or
threads keep their previous value, every other field of the addressed
output keeps its previous value, every other output of the profile and
every other profile of the document are unchanged. -/
theorem C7_update_output_partial_frame (ps : DbtProfiles) (pn oname : String)
    (prof : ProfileTarget) (c : OutputConfig) (path : Option String)
    (threads : Option Int) (hp : lookupKey ps.root pn = some prof)
    (ho : lookupKey prof.outputs oname = some c) :
    (update_output ps pn oname path threads).1 = none ∧
    (∀ q, q ≠ pn →
      lookupKey (update_output ps pn oname path threads).2.root q =
        lookupKey ps.root q) ∧
    (∃ prof', lookupKey (update_output ps pn oname path threads).2.root pn =
        some prof' ∧
      prof'.target = prof.target ∧ prof'.extras = prof.extras ∧
      (∀ o2, o2 ≠ oname →
        lookupKey prof'.outputs o2 = lookupKey prof.outputs o2) ∧
      lookupKey prof'.outputs oname = some (updateOutputConfig c path threads)) ∧
    (∀ d, c = .duckdb d → ∃ d', updateOutputConfig c path threads = .duckdb d' ∧
      (path = none → d'.path = d.path) ∧
      (∀ pv, path = some pv → d'.path = pv) ∧
      (threads = none → d'.threads = d.threads) ∧
      (∀ t, threads = some t → d'.threads = t) ∧
      d'.schema_ = d.schema_ ∧ d'.database = d.database ∧
      d'.extensions = d.extensions ∧ d'.settings = d.settings ∧
      d'.extras = d.extras) ∧
    (∀ b, c = .databricks b → ∃ b', updateOutputConfig c path threads =
        .databricks b' ∧
      b'.schema_ = b.schema_ ∧ b'.host = b.host ∧ b'.http_path = b.http_path ∧
      b'.token = b.token ∧ b'.auth_type = b.auth_type ∧
      b'.client_id = b.client_id ∧ b'.client_secret = b.client_secret ∧
      b'.azure_client_id = b.azure_client_id ∧
      b'.azure_client_secret = b.azure_client_secret ∧ b'.catalog = b.catalog ∧
      b'.connect_retries = b.connect_retries ∧
      b'.connect_timeout = b.connect_timeout ∧
      (threads = none → b'.threads = b.threads) ∧
      (∀ t, threads = some t → b'.threads = t) ∧
      (path = none → b'.extras = b.extras) ∧
      (∀ k, k ≠ "path" → lookupKey b'.extras k = lookupKey b.extras k)) := by
  have hsucc : update_output ps pn oname path threads =
      (none, ⟨modifyValue ps.root pn (fun p => { p with outputs :=
        (modifyValue p.outputs oname
          (fun c2 => updateOutputConfig c2 path threads)) })⟩) := by
    unfold update_output
    simp only [hp]
    rw [if_neg (by simp [ho])]
  refine ⟨by rw [hsucc], ?_, ?_, ?_, ?_⟩
  · intro q hq
    rw [hsucc]
    simp only [DbtProfiles_root_mk]
    exact lookupKey_modifyValue_ne _ _ hq
  · rw [hsucc]
    simp only [DbtProfiles_root_mk]
    rw [lookupKey_modifyValue_self, hp, Option.map_some']
    refine ⟨_, rfl, rfl, rfl, ?_, ?_⟩
    · intro o2 ho2
      exact lookupKey_modifyValue_ne prof.outputs
        (fun c2 => updateOutputConfig c2 path threads) ho2
    · have h2 := lookupKey_modifyValue_self prof.outputs oname
        (fun c2 => updateOutputConfig c2 path threads)
      rw [ho] at h2
      simpa using h2
  · intro d hd
    subst hd
    cases path <;> cases threads <;>
      exact ⟨_, rfl, by simp [updateOutputConfig], by simp [updateOutputConfig],
        by simp [updateOutputConfig], by simp [updateOutputConfig],
        rfl, rfl, rfl, rfl, rfl⟩
  · intro b hb
    subst hb
    refine ⟨_, rfl, rfl, rfl, rfl, rfl, rfl, rfl, rfl, rfl, rfl, rfl, rfl, rfl,
      ?_, ?_, ?_, ?_⟩
    · intro ht
      simp [updateOutputConfig, ht]
    · intro t ht
      simp [updateOutputConfig, ht]
    · intro hpath
      simp [updateOutputConfig, hpath]
    · intro k hk
      cases hpv : path with
      | none => simp [updateOutputConfig]
      | some pv =>
        simp only [updateOutputConfig]
        exact lookupKey_setKey_ne _ _ hk

/-- Witness for C7 on a concrete two-output profile. -/
theorem C7_witness :
    (update_output ⟨[("default", ⟨"dev",
      [("dev", .duckdb ⟨"dev.duckdb", "main", "main", 1, [], [], []⟩),
       ("prod", .duckdb ⟨"prod.duckdb", "main", "main", 4, [], [], []⟩)], []⟩)]⟩
      "default" "dev" (some "new.duckdb") none).1 = none ∧
    (∃ d', updateOutputConfig
        (.duckdb ⟨"dev.duckdb", "main", "main", 1, [], [], []⟩)
        (some "new.duckdb") none = .duckdb d' ∧
      (some "new.duckdb" = none → d'.path = "dev.duckdb") ∧
      (∀ pv, some "new.duckdb" = some pv → d'.path = pv) ∧
      ((none : Option Int) = none → d'.threads = 1) ∧
      (∀ t, (none : Option Int) = some t → d'.threads = t) ∧
      d'.schema_ = "main" ∧ d'.database = "main" ∧
      d'.extensions = ([] : List String) ∧
      d'.settings = ([] : List (String × Val)) ∧
      d'.extras = ([] : List (String × Val))) :=
  ⟨((C7_update_output_partial_frame ⟨[("default", ⟨"dev",
      [("dev", .duckdb ⟨"dev.duckdb", "main", "main", 1, [], [], []⟩),
       ("prod", .duckdb ⟨"prod.duckdb", "main", "main", 4, [], [], []⟩)], []⟩)]⟩
      "default" "dev"
      ⟨"dev", [("dev", .duckdb ⟨"dev.duckdb", "main", "main", 1, [], [], []⟩),
       ("prod", .duckdb ⟨"prod.duckdb", "main", "main", 4, [], [], []⟩)], []⟩
      (.duckdb ⟨"dev.duckdb", "main", "main", 1, [], [], []⟩)
      (some "new.duckdb") none rfl rfl)).1,
   ((C7_update_output_partial_frame ⟨[("default", ⟨"dev",
      [("dev", .duckdb ⟨"dev.duckdb", "main", "main", 1, [], [], []⟩),
       ("prod", .duckdb ⟨"prod.duckdb", "main", "main", 4, [], [], []⟩)], []⟩)]⟩
      "default" "dev"
      ⟨"dev", [("dev", .duckdb ⟨"dev.duckdb", "main", "main", 1, [], [], []⟩),
       ("prod", .duckdb ⟨"prod.duckdb", "main", "main", 4, [], [], []⟩)], []⟩
      (.duckdb ⟨"dev.duckdb", "main", "main", 1, [], [], []⟩)
      (some "new.duckdb") none rfl rfl)).2.2.2.1
      ⟨"dev.duckdb", "main", "main", 1, [], [], []⟩ rfl⟩

/-- C10: update_output raises only ProfileNotFoundError or
OutputNotFoundError; on an existing profile and output it succeeds for
any supplied values, assigning path and threads directly without
re-running any validation: every integer threads value is accepted
verbatim, including values below 1, and on a Databricks output the
supplied path is stored as an extra opaque field. -/
theorem C10_update_output_unvalidated (ps : DbtProfiles) (pn oname : String)
    (path : Option String) (threads : Option Int) :
    (∀ e, (update_output ps pn oname path threads).1 = some e →
      e = .profileNotFound pn ∨ e = .outputNotFound pn oname) ∧
    ((update_output ps pn oname path threads).1 = none ↔
      ∃ prof, lookupKey ps.root pn = some prof ∧
        (lookupKey prof.outputs oname).isSome = true) ∧
    (∀ d t, updateOutputConfig (.duckdb d) path (some t) =
      .duckdb ⟨path.getD d.path, d.schema_, d.database, t, d.extensions,
        d.settings, d.extras⟩) ∧
    (∀ b p t, ∃ b', updateOutputConfig (.databricks b) (some p) (some t) =
        .databricks b' ∧
      b'.threads = t ∧ lookupKey b'.extras "path" = some (.vStr p)) := by
  refine ⟨?_, ?_, ?_, ?_⟩
  · intro e he
    unfold update_output at he
    cases hm : lookupKey ps.root pn with
    | none =>
      rw [hm] at he
      simp at he
      exact Or.inl he.symm
    | some prof =>
      rw [hm] at he
      by_cases hc : (lookupKey prof.outputs oname).isNone
      · simp [hc] at he
        exact Or.inr he.symm
      · simp [hc] at he
  · unfold update_output
    cases hm : lookupKey ps.root pn with
    | none =>
      simp
    | some prof =>
      by_cases hc : (lookupKey prof.outputs oname).isNone
      · simp [hc, Option.isNone_iff_eq_none.mp hc]
      · simp [hc]
        cases hx : lookupKey prof.outputs oname with
        | none => exact absurd (Option.isNone_iff_eq_none.mpr hx) hc
        | some c => rfl
  · intro d t
    rfl
  · intro b p t
    exact ⟨_, rfl, rfl, lookupKey_setKey_self b.extras "path" (.vStr p)⟩

/-- Witness for C10: a threads value of 0 is stored verbatim and a path
is stored as an extra on a Databricks output. -/
theorem C10_witness :
    updateOutputConfig (.duckdb ⟨"dev.duckdb", "main", "main", 4, [], [], []⟩)
      none (some 0) =
      .duckdb ⟨"dev.duckdb", "main", "main", 0, [], [], []⟩ ∧
    (∃ b', updateOutputConfig (.databricks ⟨"sch", "h", "/p", some "tok", none,
        none, none, none, none, none, 1, 0, none, []⟩) (some "x.duckdb")
        (some 0) = .databricks b' ∧
      b'.threads = 0 ∧ lookupKey b'.extras "path" = some (.vStr "x.duckdb")) ∧
    (∀ e, (update_output ⟨[]⟩ "missing" "dev" none (some 0)).1 = some e →
      e = .profileNotFound "missing" ∨ e = .outputNotFound "missing" "dev") :=
  ⟨(C10_update_output_unvalidated ⟨[]⟩ "p" "o" none (some 0)).2.2.1
      ⟨"dev.duckdb", "main", "main", 4, [], [], []⟩ 0,
   (C10_update_output_unvalidated ⟨[]⟩ "p" "o" (some "x.duckdb") (some 0)).2.2.2
      ⟨"sch", "h", "/p", some "tok", none, none, none, none, none, none, 1, 0,
        none, []⟩ "x.duckdb" 0,
   (C10_update_output_unvalidated ⟨[]⟩ "missing" "dev" none (some 0)).1⟩

/-- Counterexample to C2 as stated: starting from a document parsed
from valid text, one update_output call that sets path to the memory
marker produces a document whose serialization re-parses successfully
but is not equal to it field for field, because the database sync
normalization reruns on parse while update_output assigns without
validation. -/
theorem C2_counterexample :
    fromVal (.vMap [("default", .vMap [("target", .vStr "dev"),
        ("outputs", .vMap [("dev", .vMap [("type", .vStr "duckdb"),
          ("path", .vStr "dev.duckdb")])])])]) =
      .ok ⟨[("default", ⟨"dev",
        [("dev", .duckdb ⟨"dev.duckdb", "main", "main", 1, [], [], []⟩)], []⟩)]⟩ ∧
    update_output ⟨[("default", ⟨"dev",
        [("dev", .duckdb ⟨"dev.duckdb", "main", "main", 1, [], [], []⟩)], []⟩)]⟩
      "default" "dev" (some ":memory:") none =
      (none, ⟨[("default", ⟨"dev",
        [("dev", .duckdb ⟨":memory:", "main", "main", 1, [], [], []⟩)], []⟩)]⟩) ∧
    fromVal (to_yaml ⟨[("default", ⟨"dev",
        [("dev", .duckdb ⟨":memory:", "main", "main", 1, [], [], []⟩)], []⟩)]⟩) =
      .ok ⟨[("default", ⟨"dev",
        [("dev", .duckdb ⟨":memory:", "main", "memory", 1, [], [], []⟩)], []⟩)]⟩ ∧
    (⟨[("default", ⟨"dev",
        [("dev", .duckdb ⟨":memory:", "main", "memory", 1, [], [], []⟩)], []⟩)]⟩ :
      DbtProfiles) ≠
      ⟨[("default", ⟨"dev",
        [("dev", .duckdb ⟨":memory:", "main", "main", 1, [], [], []⟩)], []⟩)]⟩ := by
  refine ⟨rfl, rfl, rfl, ?_⟩
  intro h
  simp at h

/-- C2 amended: the round trip holds for every document whose outputs
satisfy their construction-time validators and normalizations and whose
extras avoid reserved keys and null values; documents produced by
Editor operations can leave that set through update_output, and only
for those can the round trip differ. -/
theorem C2_roundtrip_for_wf_documents (ps : DbtProfiles) (h : WfDoc ps) :
    fromVal (to_yaml ps) = .ok ps :=
  parse_dump_doc ps h

/-- Witness for C2 on a concrete well-formed document with extras,
extensions and settings. -/
theorem C2_witness :
    fromVal (to_yaml ⟨[("default", ⟨"dev",
      [("dev", .duckdb ⟨"dev.duckdb", "analytics", "main", 4, ["httpfs"],
        [("memory_limit", .vStr "4GB")], [("plugins", .vStr "x")]⟩)],
      [("anchor", .vStr "a")]⟩)]⟩) =
      .ok ⟨[("default", ⟨"dev",
      [("dev", .duckdb ⟨"dev.duckdb", "analytics", "main", 4, ["httpfs"],
        [("memory_limit", .vStr "4GB")], [("plugins", .vStr "x")]⟩)],
      [("anchor", .vStr "a")]⟩)]⟩ :=
  C2_roundtrip_for_wf_documents _ (by
    intro kv hkv
    simp at hkv
    subst hkv
    refine ⟨?_, ?_⟩
    · intro kv2 h2
      simp at h2
      subst h2
      exact ⟨by decide, rfl⟩
    · intro kv2 h2
      simp at h2
      subst h2
      refine ⟨fun hp => absurd hp (by decide), ?_⟩
      intro kv3 h3
      simp at h3
      subst h3
      exact ⟨by decide, rfl⟩)

theorem parseProfilesList_ok_iff (kvs : List (String × Val)) :
    (∃ root, parseProfilesList kvs = .ok root) ↔
      ∀ kv ∈ kvs, ∃ p, parseProfileTarget kv.2 = .ok p := by
  induction kvs with
  | nil => simp [parseProfilesList]
  | cons kv rest ih =>
    obtain ⟨k, v⟩ := kv
    cases hv : parseProfileTarget v with
    | error e =>
      simp only [parseProfilesList, hv]
      constructor
      · rintro ⟨root, hroot⟩
        exact absurd hroot (by simp)
      · intro hall
        obtain ⟨p, hp⟩ := hall (k, v) (List.mem_cons_self ..)
        rw [hv] at hp
        exact absurd hp (by simp)
    | ok p =>
      cases hrest : parseProfilesList rest with
      | error e =>
        simp only [parseProfilesList, hv, hrest]
        constructor
        · rintro ⟨root, hroot⟩
          exact absurd hroot (by simp)
        · intro hall
          obtain ⟨root, hroot⟩ := ih.mpr
            (fun kv h => hall kv (List.mem_cons_of_mem _ h))
          rw [hrest] at hroot
          exact absurd hroot (by simp)
      | ok ps2 =>
        simp only [parseProfilesList, hv, hrest]
        constructor
        · intro _ kv hkv
          rcases List.mem_cons.mp hkv with heq | hm
          · subst heq
            exact ⟨p, hv⟩
          · exact (ih.mp ⟨ps2, hrest⟩) kv hm
        · intro _
          exact ⟨(k, p) :: ps2, rfl⟩

theorem parseProfilesList_keys (kvs : List (String × Val))
    (root : List (String × ProfileTarget)) (h : parseProfilesList kvs = .ok root) :
    keysOf root = keysOf kvs := by
  induction kvs generalizing root with
  | nil =>
    simp [parseProfilesList] at h
    subst h
    rfl
  | cons kv rest ih =>
    obtain ⟨k, v⟩ := kv
    cases hv : parseProfileTarget v with
    | error e =>
      rw [parseProfilesList, hv] at h
      exact absurd h (by simp)
    | ok p =>
      cases hrest : parseProfilesList rest with
      | error e =>
        rw [parseProfilesList, hv, hrest] at h
        exact absurd h (by simp)
      | ok ps2 =>
        rw [parseProfilesList, hv, hrest] at h
        have hr : root = (k, p) :: ps2 := by
          injection h with h2
          exact h2.symm
        subst hr
        rw [keysOf_cons, keysOf_cons, ih ps2 hrest]

/-- Counterexample to C4 as stated: a top-level key whose value is not
a profile definition, such as a dbt config block, is rejected by
fromText with the SchemaError kind rather than accepted and preserved,
because from_yaml passes the entire top-level mapping as the root
field, whose every value must validate as a ProfileTarget. -/
theorem C4_counterexample :
    fromVal (.vMap [("default", .vMap [("target", .vStr "dev"),
        ("outputs", .vMap [("dev", .vMap [("type", .vStr "duckdb")])])]),
      ("config", .vMap [("send_anonymous_usage_stats", .vBool false)])]) =
      .error (.schemaError "target Field required") := rfl

/-- C4 amended: fromText accepts a top-level mapping exactly when every
top-level value parses as a profile definition; there is no opaque
preservation of unknown top-level fields: every accepted top-level key
is parsed as a profile and appears in the document root. -/
theorem C4_top_level_values_must_be_profiles (kvs : List (String × Val)) :
    ((∃ d, fromVal (.vMap kvs) = .ok d) ↔
      ∀ kv ∈ kvs, ∃ p, parseProfileTarget kv.2 = .ok p) ∧
    (∀ d, fromVal (.vMap kvs) = .ok d → keysOf d.root = keysOf kvs) := by
  constructor
  · rw [← parseProfilesList_ok_iff]
    simp only [fromVal]
    constructor
    · rintro ⟨d, hd⟩
      cases hroot : parseProfilesList kvs with
      | error e =>
        rw [hroot] at hd
        exact absurd hd (by simp)
      | ok root => exact ⟨root, rfl⟩
    · rintro ⟨root, hroot⟩
      rw [hroot]
      exact ⟨⟨root⟩, rfl⟩
  · intro d hd
    simp only [fromVal] at hd
    cases hroot : parseProfilesList kvs with
    | error e =>
      rw [hroot] at hd
      exact absurd hd (by simp)
    | ok root =>
      rw [hroot] at hd
      have hr : d = ⟨root⟩ := by
        injection hd with h2
        exact h2.symm
      subst hr
      exact parseProfilesList_keys kvs root hroot

/-- Witness for C4: an accepted document has exactly the top-level keys
as profile names. -/
theorem C4_witness :
    keysOf (⟨[("default", ⟨"dev",
        [("dev", .duckdb ⟨"dev.duckdb", "main", "main", 1, [], [], []⟩)], []⟩)]⟩ :
      DbtProfiles).root =
      keysOf [("default", Val.vMap [("target", Val.vStr "dev"),
        ("outputs", Val.vMap [("dev", Val.vMap [("type", Val.vStr "duckdb"),
          ("path", Val.vStr "dev.duckdb")])])])] :=
  (C4_top_level_values_must_be_profiles [("default", Val.vMap
      [("target", Val.vStr "dev"),
       ("outputs", Val.vMap [("dev", Val.vMap [("type", Val.vStr "duckdb"),
         ("path", Val.vStr "dev.duckdb")])])])]).2
    ⟨[("default", ⟨"dev",
      [("dev", .duckdb ⟨"dev.duckdb", "main", "main", 1, [], [], []⟩)], []⟩)]⟩ rfl
